import Mathlib

/-!
Shallow embedding of the numerical-truss-optimizer analysis core.

The embedding follows the Python sources:
  src/optimizer/fem_solver.py, src/optimizer_3d/fem_solver.py (assembly,
  boundary-condition solve, force recovery, Euler buckling load),
  src/optimizer/analysis.py, src/optimizer_3d/analysis.py (metrics and the
  weighted objective score), and src/optimizer.py (the geometry optimizer's
  data flow over the points table).

Python floats are idealised as real numbers; `math.pi` becomes `Real.pi`,
`math.sqrt` / `np.sqrt` become `Real.sqrt`.  A pandas NaN used as the
missing value of the `Pc` column is modelled as `Option.none`; a lookup
that raises (`KeyError` of a dict, `IndexError` of `.iloc[0]`) makes the
enclosing function return `Option.none` / `Except.error`.
-/

set_option maxHeartbeats 1000000

namespace Truss

/-- One row of the stresses DataFrame produced by the FEM solvers
(columns element, start, end, L, axial_force, axial_stress, A, E, I and,
after calculate_critical_buckling_force, Pc).  The float columns that can
hold NaN are modelled as `Option ℝ` with `none` for NaN: Pc uses NaN as the
missing value (pandas isnull/dropna recognise it), and axial_force /
axial_stress are NaN when the displacements they were recovered from are
NaN (a failed sparse solve). -/
structure StressRow where
  element : ℕ
  axial_force : Option ℝ
  axial_stress : Option ℝ
  L : ℝ
  A : ℝ
  E : ℝ
  I : ℝ
  Pc : Option ℝ

/-- A Python float result that may be the IEEE infinity produced by
float('inf') / np.inf; every other value reached by the analysis code is an
ordinary (finite) float. -/
inductive Metric where
  | val (x : ℝ)
  | infty

open scoped Classical

namespace analysis

/-- compressive_members = stresses_df[stresses_df['axial_force'] < 0].
A pandas comparison against NaN is False, so a NaN-force row is never
selected as compressive. -/
noncomputable def compressiveMembers (stresses : List StressRow) : List StressRow :=
  stresses.filter (fun r =>
    match r.axial_force with
    | some v => decide (v < 0)
    | none => false)

/-- dropna(subset=['Pc']): keep the rows whose Pc is not the NaN marker. -/
def dropnaPc (rows : List StressRow) : List StressRow :=
  rows.filter (fun r => r.Pc.isSome)

/-- The Pc value of a row, read after dropna has kept only rows with
`Pc = some _`. -/
def pcVal (r : StressRow) : ℝ := r.Pc.getD 0

/-- The axial-force value of a row, read after the compressive filter has
kept only rows with `axial_force = some _`. -/
def fVal (r : StressRow) : ℝ := r.axial_force.getD 0

/-- mu = np.abs(axial_force / Pc), the buckling utilization of a row
(evaluated on compressive rows — so with a real force value — that
survived dropna). -/
noncomputable def muRow (r : StressRow) : ℝ := |fVal r / pcVal r|

/-- calculate_buckling_penalty (identical in src/optimizer/analysis.py and
src/optimizer_3d/analysis.py): 1e6 on an empty stresses DataFrame (solver
failure), 100.0 if any compressive member with a Pc value has mu >= 1,
else 0.0. -/
noncomputable def calculate_buckling_penalty (stresses : List StressRow) : ℝ :=
  if stresses = [] then 1000000
  else if (dropnaPc (compressiveMembers stresses)).any (fun r => decide (1 ≤ muRow r)) then 100
  else 0

/-- numerator / denominator of gamma, with the source's guard
`if denominator != 0 else 0`; the weights are w_i = |axial_force_i|
(compressive rows, so the force value is real). -/
noncomputable def gammaOf (comp : List StressRow) : ℝ :=
  let numerator := (comp.map (fun r => muRow r * |fVal r|)).sum
  let denominator := (comp.map (fun r => |fVal r|)).sum
  if denominator ≠ 0 then numerator / denominator else 0

/-- variance = np.average((mu - gamma)^2, weights=|axial_force|). -/
noncomputable def varianceOf (comp : List StressRow) : ℝ :=
  (comp.map (fun r => |fVal r| * (muRow r - gammaOf comp) ^ 2)).sum /
    (comp.map (fun r => |fVal r|)).sum

/-- The pair returned by calculate_buckling_indices. -/
structure BucklingIndices where
  buckling_distribution_factor : ℝ
  coefficient_of_variation : Metric

/-- calculate_buckling_indices (identical in src/optimizer/analysis.py and
src/optimizer_3d/analysis.py): early return of zero metrics when there are
no compressive members or all their Pc entries are NaN; otherwise gamma,
s_mu = sqrt(weighted variance), buckling_distribution_factor = gamma + 2 s,
coefficient_of_variation = s/gamma, or float('inf') when gamma == 0. -/
noncomputable def calculate_buckling_indices (stresses : List StressRow) : BucklingIndices :=
  let comp := compressiveMembers stresses
  if comp = [] ∨ comp.all (fun r => r.Pc.isNone) then
    { buckling_distribution_factor := 0, coefficient_of_variation := Metric.val 0 }
  else
    let compPc := dropnaPc comp
    let gamma := gammaOf compPc
    let s := Real.sqrt (varianceOf compPc)
    { buckling_distribution_factor := gamma + 2 * s
      coefficient_of_variation := if gamma ≠ 0 then Metric.val (s / gamma) else Metric.infty }

/-- The five caller-supplied objective weights. -/
structure Weights where
  buckling_distribution_factor : ℝ
  buckling_penalty : ℝ
  material_usage : ℝ
  compressive_uniformity : ℝ
  average_force_magnitude : ℝ

/-- The score combination of src/optimizer/analysis.py get_objective:
the plain weighted sum of the five metric values. -/
noncomputable def score2d (bdf pen usage cov force : ℝ) (w : Weights) : ℝ :=
  bdf * w.buckling_distribution_factor +
  pen * w.buckling_penalty +
  usage * w.material_usage +
  cov * w.compressive_uniformity +
  force * w.average_force_magnitude

/-- total_weight = sum(weights.values()) in src/optimizer_3d/analysis.py. -/
noncomputable def totalWeight (w : Weights) : ℝ :=
  w.buckling_distribution_factor + w.buckling_penalty + w.material_usage +
    w.compressive_uniformity + w.average_force_magnitude

/-- The score combination of src/optimizer_3d/analysis.py get_objective:
the weighted sum divided by the total weight, or float('inf') when the
total weight is not positive. -/
noncomputable def score3d (bdf pen usage cov force : ℝ) (w : Weights) : Metric :=
  if 0 < totalWeight w then Metric.val (score2d bdf pen usage cov force w / totalWeight w)
  else Metric.infty

end analysis

/-- calculate_critical_buckling_force (identical in both fem_solver files):
the Pc column is first set to NaN everywhere, then the compressive mask
(axial_force < 0, False on a NaN force) receives pi^2 * E * I / L^2; so a
compressive row carries `some (pi^2 E I / L^2)` and every other row —
tension, zero force, or NaN force — carries the missing value. -/
noncomputable def calculate_critical_buckling_force (stresses : List StressRow) :
    List StressRow :=
  stresses.map (fun r =>
    { r with Pc :=
        match r.axial_force with
        | some v => if v < 0 then some (Real.pi ^ 2 * r.E * r.I / r.L ^ 2) else none
        | none => none })

/-- One row of the points DataFrame (points.csv): columns Node, x, y
(and z for the 3D solver). -/
structure PointRow where
  Node : ℕ
  x : ℚ
  y : ℚ
deriving DecidableEq

/-- One row of the trusses DataFrame: columns element, start, end,
material_id.  The column named end is spelled end_ because end is a Lean
keyword. -/
structure TrussRow where
  element : ℕ
  start : ℕ
  end_ : ℕ
  material_id : ℕ
deriving DecidableEq

/-- One row of the materials DataFrame after the solver has ensured a
material_id column exists (2D code copies the index into it when the
column is missing). -/
structure MaterialRow where
  material_id : ℕ
  E : ℚ
  A : ℚ
  I : ℚ
deriving DecidableEq

/-- One row of the supports DataFrame; Rx / Ry are the 0-or-1 restraint
flags the solver compares against 1 (columns defaulted to 0 when absent). -/
structure SupportRow where
  Node : ℕ
  Rx : ℕ
  Ry : ℕ
deriving DecidableEq

/-- One row of the loads DataFrame. -/
structure LoadRow where
  Node : ℕ
  Fx : ℚ
  Fy : ℚ
deriving DecidableEq

/-- id_to_idx = \x7bnid: i for i, nid in enumerate(node_ids)\x7d.  A Python
dict comprehension keeps the LAST index written for a duplicated node id,
which is what the auxiliary recursion below prefers; `none` models the
KeyError raised by id_to_idx[missing]. -/
def idToIdxAux : List ℕ → ℕ → ℕ → Option ℕ
  | [], _, _ => none
  | h :: t, nid, i =>
      match idToIdxAux t nid (i + 1) with
      | some j => some j
      | none => if h = nid then some i else none

/-- Index of a node id in the node-id column, last occurrence winning. -/
def idToIdx (nodeIds : List ℕ) (nid : ℕ) : Option ℕ :=
  idToIdxAux nodeIds nid 0

/-- points_df.loc[points_df['Node'] == n, ['x','y']].iloc[0]: the first row
whose Node column matches; `none` models the IndexError on no match. -/
def findPoint (pts : List PointRow) (nid : ℕ) : Option PointRow :=
  pts.find? (fun p => p.Node = nid)

namespace TwoD

/-- Per-member auxiliary record stored by the 2D assembler. -/
structure ElemData where
  element : ℕ
  start : ℕ
  end_ : ℕ
  L : ℝ
  cx : ℝ
  cy : ℝ
  E : ℚ
  A : ℚ
  I : ℚ
  k_local : ℝ

/-- The global DOF indices [2 i1, 2 i1 + 1, 2 i2, 2 i2 + 1] of a 2D member. -/
def dofs2 (i1 i2 : ℕ) : Fin 4 → ℕ := ![2 * i1, 2 * i1 + 1, 2 * i2, 2 * i2 + 1]

/-- k_global_element = k_local * np.array([[cx^2, cx cy, -cx^2, -cx cy], ...]),
the 4x4 literal of the 2D source. -/
noncomputable def k_global_element (k_local cx cy : ℝ) : Fin 4 → Fin 4 → ℝ := fun i j =>
  k_local *
    !![cx ^ 2, cx * cy, -cx ^ 2, -(cx * cy);
       cx * cy, cy ^ 2, -(cx * cy), -cy ^ 2;
       -cx ^ 2, -(cx * cy), cx ^ 2, cx * cy;
       -(cx * cy), -cy ^ 2, cx * cy, cy ^ 2] i j

/-- The double scatter-add loop `K[dof_i, dof_j] += ke[i, j]` over the 16
local index pairs, as a pointwise update of the global matrix. -/
noncomputable def scatterAdd4 (K : ℕ → ℕ → ℝ) (dof : Fin 4 → ℕ)
    (ke : Fin 4 → Fin 4 → ℝ) : ℕ → ℕ → ℝ := fun p q =>
  K p q + ∑ i : Fin 4, ∑ j : Fin 4, if dof i = p ∧ dof j = q then ke i j else 0

/-- The squared member length (p2.x - p1.x)^2 + (p2.y - p1.y)^2, an exact
rational of the input coordinates; the source's L is its real square root. -/
def lenSq (p1 p2 : PointRow) : ℚ := (p2.x - p1.x) ^ 2 + (p2.y - p1.y) ^ 2

/-- One iteration of the 2D assembly loop over trusses_df.iterrows():
resolve the endpoint indices and coordinates (KeyError / IndexError modelled
as none), compute L = sqrt(dx^2 + dy^2); `if L == 0: continue` silently
skips the member; otherwise compute direction cosines, look the material up
by material_id (`.iloc[0]` on an empty selection raises, modelled as none),
and scatter-add the element stiffness. -/
noncomputable def assembleStep (pts : List PointRow) (materials : List MaterialRow)
    (acc : (ℕ → ℕ → ℝ) × List ElemData) (row : TrussRow) :
    Option ((ℕ → ℕ → ℝ) × List ElemData) := do
  let nodeIds := pts.map (fun p => p.Node)
  let i1 ← idToIdx nodeIds row.start
  let i2 ← idToIdx nodeIds row.end_
  let p1 ← findPoint pts row.start
  let p2 ← findPoint pts row.end_
  let L : ℝ := Real.sqrt ((lenSq p1 p2 : ℚ) : ℝ)
  if L = 0 then
    pure acc
  else
    let cx : ℝ := ((p2.x - p1.x : ℚ) : ℝ) / L
    let cy : ℝ := ((p2.y - p1.y : ℚ) : ℝ) / L
    let material ← (materials.filter (fun m => m.material_id = row.material_id)).head?
    let k_local : ℝ := ((material.E : ℝ) * (material.A : ℝ)) / L
    pure (scatterAdd4 acc.1 (dofs2 i1 i2) (k_global_element k_local cx cy),
      acc.2 ++ [{ element := row.element, start := row.start, end_ := row.end_,
                  L := L, cx := cx, cy := cy, E := material.E, A := material.A,
                  I := material.I, k_local := k_local }])

/-- assemble_truss_stiffness of src/optimizer/fem_solver.py: fold the
assembly step over the member rows, starting from the zero matrix and an
empty element_data list. -/
noncomputable def assemble_truss_stiffness (pts : List PointRow) (trusses : List TrussRow)
    (materials : List MaterialRow) : Option ((ℕ → ℕ → ℝ) × List ElemData) :=
  trusses.foldlM (assembleStep pts materials) (fun _ _ => 0, [])

/-- One iteration of the load-accumulation loop: F[2 idx] += Fx,
F[2 idx + 1] += Fy, with id_to_idx[row['Node']] raising on a missing id. -/
noncomputable def loadStep (nodeIds : List ℕ) (F : ℕ → ℝ) (row : LoadRow) :
    Option (ℕ → ℝ) := do
  let i ← idToIdx nodeIds row.Node
  pure (fun d =>
    if d = 2 * i then F d + (row.Fx : ℝ)
    else if d = 2 * i + 1 then F d + (row.Fy : ℝ)
    else F d)

/-- The force vector: zeros, then the accumulated loads when a loads
DataFrame was given. -/
noncomputable def buildF (nodeIds : List ℕ) (loads : Option (List LoadRow)) :
    Option (ℕ → ℝ) :=
  match loads with
  | none => some (fun _ => 0)
  | some ls => ls.foldlM (loadStep nodeIds) (fun _ => 0)

/-- The support rows paired with their resolved node indices
(id_to_idx[row['Node']] raises on a missing id). -/
def supIdxOf (nodeIds : List ℕ) (supports : List SupportRow) :
    Option (List (ℕ × SupportRow)) :=
  supports.mapM (fun s => (idToIdx nodeIds s.Node).map (fun i => (i, s)))

/-- Whether the removal loop drops DOF d from dof_to_keep: some support row
with Rx == 1 owns it as 2 idx, or with Ry == 1 as 2 idx + 1. -/
def flagged (supIdx : List (ℕ × SupportRow)) (d : ℕ) : Bool :=
  supIdx.any (fun p => decide ((p.2.Rx = 1 ∧ d = 2 * p.1) ∨ (p.2.Ry = 1 ∧ d = 2 * p.1 + 1)))

/-- dof_to_keep: list(range(ndof)) with every flagged DOF removed (removing
from an ascending list is the same as filtering it). -/
def keepOf (ndof : ℕ) (supIdx : List (ℕ × SupportRow)) : List ℕ :=
  (List.range ndof).filter (fun d => !flagged supIdx d)

/-- The reduced matrix K[np.ix_(dof_to_keep, dof_to_keep)]. -/
noncomputable def reduceK (K : ℕ → ℕ → ℝ) (keep : List ℕ) :
    Matrix (Fin keep.length) (Fin keep.length) ℝ := fun a b => K (keep.get a) (keep.get b)

/-- scipy.sparse.linalg.spsolve modelled as an exact direct solve: it
produces the unique solution when the matrix is invertible, and on a
singular matrix it does NOT raise — it issues a MatrixRankWarning and
returns a NaN-filled vector, modelled as `none` in every entry.  (The
source wraps the call in try/except, but a singular matrix never reaches
the except branch.) -/
noncomputable def linSolve {n : ℕ} (M : Matrix (Fin n) (Fin n) ℝ) (b : Fin n → ℝ) :
    Fin n → Option ℝ :=
  if M.det = 0 then fun _ => none else fun i => some (M.cramer b i / M.det)

/-- displacements = np.zeros(ndof); displacements[dof_to_keep] = u_reduced:
a DOF kept at position a receives u a (possibly the NaN marker from a
failed solve), every other DOF stays at the exact real zero of np.zeros. -/
noncomputable def scatterDisp (keep : List ℕ) (u : Fin keep.length → Option ℝ) :
    ℕ → Option ℝ :=
  fun d =>
    match (keep.zip (List.ofFn u)).find? (fun pr => pr.1 = d) with
    | some pr => pr.2
    | none => some 0

/-- Axial-force recovery for one element record: delta_length =
(u2 - u1) . (cx, cy), axial_force = k_local * delta_length, and the
stresses row (its Pc column does not exist yet; the record carries none).
IEEE NaN propagates through every arithmetic operation (including
NaN * 0 = NaN), which `Option.map` / `Option.map₂` model exactly. -/
noncomputable def recoverRow (nodeIds : List ℕ) (displacements : ℕ → Option ℝ)
    (ed : ElemData) : Option StressRow := do
  let i1 ← idToIdx nodeIds ed.start
  let i2 ← idToIdx nodeIds ed.end_
  let delta := Option.map₂ (· + ·)
    ((Option.map₂ (· - ·) (displacements (2 * i2)) (displacements (2 * i1))).map
      (· * ed.cx))
    ((Option.map₂ (· - ·) (displacements (2 * i2 + 1)) (displacements (2 * i1 + 1))).map
      (· * ed.cy))
  let axial_force := delta.map (fun x => ed.k_local * x)
  pure { element := ed.element, axial_force := axial_force,
         axial_stress := axial_force.map (fun x => x / (ed.A : ℝ)), L := ed.L,
         A := (ed.A : ℝ), E := (ed.E : ℝ), I := (ed.I : ℝ), Pc := none }

/-- calculate_axial_forces_and_displacements of src/optimizer/fem_solver.py:
build F, drop restrained DOFs, solve the reduced system (a singular matrix
yields NaN values, not an exception, so the except-branch zero fill is
unreachable and no error is ever reported), scatter back leaving restrained
DOFs at exactly zero, and recover the per-member axial forces (NaN
displacements propagate to NaN forces). -/
noncomputable def calculate_axial_forces_and_displacements (K : ℕ → ℕ → ℝ)
    (element_data : List ElemData) (pts : List PointRow)
    (supports : List SupportRow) (loads : Option (List LoadRow)) :
    Option ((ℕ → Option ℝ) × List StressRow) := do
  let nodeIds := pts.map (fun p => p.Node)
  let ndof := 2 * pts.length
  let F ← buildF nodeIds loads
  let supIdx ← supIdxOf nodeIds supports
  let keep := keepOf ndof supIdx
  let displacements := scatterDisp keep
    (linSolve (reduceK K keep) (fun a => F (keep.get a)))
  let rows ← element_data.mapM (recoverRow nodeIds displacements)
  pure (displacements, rows)

/-- truss_analyze of src/optimizer/fem_solver.py: assemble, solve, then add
the Pc column; returns (stresses_df, displacements). -/
noncomputable def truss_analyze (pts : List PointRow) (trusses : List TrussRow)
    (supports : List SupportRow) (materials : List MaterialRow)
    (loads : Option (List LoadRow)) : Option (List StressRow × (ℕ → Option ℝ)) := do
  let Ked ← assemble_truss_stiffness pts trusses materials
  let du ← calculate_axial_forces_and_displacements Ked.1 Ked.2 pts supports loads
  pure (calculate_critical_buckling_force du.2, du.1)

end TwoD

/-- One row of the 3D points DataFrame: columns Node, x, y, z. -/
structure Point3Row where
  Node : ℕ
  x : ℚ
  y : ℚ
  z : ℚ
deriving DecidableEq

/-- One row of the 3D supports DataFrame with the Rz flag
(row.get('Rx', 0) defaults a missing column to 0). -/
structure Support3Row where
  Node : ℕ
  Rx : ℕ
  Ry : ℕ
  Rz : ℕ
deriving DecidableEq

/-- One row of the 3D loads DataFrame. -/
structure Load3Row where
  Node : ℕ
  Fx : ℚ
  Fy : ℚ
  Fz : ℚ
deriving DecidableEq

/-- First row whose Node matches, for the 3D coordinate lookup
points_df.loc[...].iloc[0]. -/
def findPoint3 (pts : List Point3Row) (nid : ℕ) : Option Point3Row :=
  pts.find? (fun p => p.Node = nid)

namespace ThreeD

/-- Per-member auxiliary record stored by the 3D assembler (its dof list is
recomputed from the indices where needed). -/
structure ElemData where
  element : ℕ
  start : ℕ
  end_ : ℕ
  L : ℝ
  cx : ℝ
  cy : ℝ
  cz : ℝ
  E : ℚ
  A : ℚ
  I : ℚ
  k_local : ℝ
  dof : List ℕ

/-- The global DOF indices [3 i1, 3 i1 + 1, 3 i1 + 2, 3 i2, 3 i2 + 1, 3 i2 + 2]. -/
def dofs3 (i1 i2 : ℕ) : Fin 6 → ℕ :=
  ![3 * i1, 3 * i1 + 1, 3 * i1 + 2, 3 * i2, 3 * i2 + 1, 3 * i2 + 2]

/-- C_matrix = np.outer(c, c). -/
noncomputable def C_matrix (c : Fin 3 → ℝ) : Fin 3 → Fin 3 → ℝ := fun i j => c i * c j

/-- The 6x6 element stiffness built from its four quadrants
K_e[0:3,0:3] = k C, K_e[0:3,3:6] = -k C, K_e[3:6,0:3] = -k C,
K_e[3:6,3:6] = k C: the sign of a quadrant is the product of the signs of
its half-indices, and the entry inside a quadrant is C at the indices
modulo 3. -/
noncomputable def K_e (k_local : ℝ) (c : Fin 3 → ℝ) : Fin 6 → Fin 6 → ℝ := fun a b =>
  (if (a : ℕ) < 3 then 1 else -1) * (if (b : ℕ) < 3 then 1 else -1) * k_local *
    C_matrix c ⟨(a : ℕ) % 3, Nat.mod_lt _ (by norm_num)⟩
      ⟨(b : ℕ) % 3, Nat.mod_lt _ (by norm_num)⟩

/-- The double scatter-add loop `K[r_global, c_global] += K_e[r_local, c_local]`
over the 36 local index pairs. -/
noncomputable def scatterAdd6 (K : ℕ → ℕ → ℝ) (dof : Fin 6 → ℕ)
    (ke : Fin 6 → Fin 6 → ℝ) : ℕ → ℕ → ℝ := fun p q =>
  K p q + ∑ i : Fin 6, ∑ j : Fin 6, if dof i = p ∧ dof j = q then ke i j else 0

/-- The squared 3D member length dx^2 + dy^2 + dz^2. -/
def lenSq3 (p1 p2 : Point3Row) : ℚ :=
  (p2.x - p1.x) ^ 2 + (p2.y - p1.y) ^ 2 + (p2.z - p1.z) ^ 2

/-- material_lookup.loc / .iloc of the 3D assembler: the materials table is
indexed by row position; an index that is not present falls back to
iloc[0], and iloc[0] of an empty table raises (none).  No warning is
emitted anywhere on the fallback path. -/
def materialAt (materials : List MaterialRow) (idx : ℕ) : Option MaterialRow :=
  if h : idx < materials.length then some (materials.get ⟨idx, h⟩) else materials.head?

/-- One iteration of the 3D assembly loop.  Unlike the 2D assembler there is
no zero-length guard: L = sqrt(dx^2+dy^2+dz^2) is used as a divisor
unconditionally (in the source a zero L yields NaN direction cosines; in
this exact embedding the total division returns 0 — either way assembly
does not abort). -/
noncomputable def assembleStep (pts : List Point3Row) (materials : List MaterialRow)
    (acc : (ℕ → ℕ → ℝ) × List ElemData) (row : TrussRow) :
    Option ((ℕ → ℕ → ℝ) × List ElemData) := do
  let nodeIds := pts.map (fun p => p.Node)
  let i1 ← idToIdx nodeIds row.start
  let i2 ← idToIdx nodeIds row.end_
  let p1 ← findPoint3 pts row.start
  let p2 ← findPoint3 pts row.end_
  let L : ℝ := Real.sqrt ((lenSq3 p1 p2 : ℚ) : ℝ)
  let cx : ℝ := ((p2.x - p1.x : ℚ) : ℝ) / L
  let cy : ℝ := ((p2.y - p1.y : ℚ) : ℝ) / L
  let cz : ℝ := ((p2.z - p1.z : ℚ) : ℝ) / L
  let material ← materialAt materials row.material_id
  let k_local : ℝ := ((material.A : ℝ) * (material.E : ℝ)) / L
  pure (scatterAdd6 acc.1 (dofs3 i1 i2) (K_e k_local ![cx, cy, cz]),
    acc.2 ++ [{ element := row.element, start := row.start, end_ := row.end_,
                L := L, cx := cx, cy := cy, cz := cz, E := material.E,
                A := material.A, I := material.I, k_local := k_local,
                dof := [3 * i1, 3 * i1 + 1, 3 * i1 + 2, 3 * i2, 3 * i2 + 1, 3 * i2 + 2] }])

/-- assemble_truss_stiffness of src/optimizer_3d/fem_solver.py; also
returns ndof = 3 * node_count. -/
noncomputable def assemble_truss_stiffness (pts : List Point3Row) (trusses : List TrussRow)
    (materials : List MaterialRow) :
    Option (((ℕ → ℕ → ℝ) × List ElemData) × ℕ) := do
  let Ked ← trusses.foldlM (assembleStep pts materials) (fun _ _ => 0, [])
  pure (Ked, 3 * pts.length)

/-- One iteration of the 3D load loop: id_to_idx.get returns None for a
missing id and the row is skipped (no KeyError), otherwise
F[3 idx + axis] += the force component. -/
noncomputable def loadStep3 (nodeIds : List ℕ) (F : ℕ → ℝ) (row : Load3Row) : ℕ → ℝ :=
  match idToIdx nodeIds row.Node with
  | none => F
  | some i => fun d =>
      if d = 3 * i then F d + (row.Fx : ℝ)
      else if d = 3 * i + 1 then F d + (row.Fy : ℝ)
      else if d = 3 * i + 2 then F d + (row.Fz : ℝ)
      else F d

/-- The 3D force vector (loads_df may be absent or empty). -/
noncomputable def buildF3 (nodeIds : List ℕ) (loads : Option (List Load3Row)) : ℕ → ℝ :=
  match loads with
  | none => fun _ => 0
  | some ls => ls.foldl (loadStep3 nodeIds) (fun _ => 0)

/-- The constrained_dof list: for each support row whose node resolves
(rows with an unknown id are skipped via .get), append 3 idx / 3 idx + 1 /
3 idx + 2 for each restraint flag equal to 1. -/
def constrainedDof (nodeIds : List ℕ) (supports : List Support3Row) : List ℕ :=
  supports.foldl (fun acc s =>
    match idToIdx nodeIds s.Node with
    | none => acc
    | some i =>
        acc ++ (if s.Rx = 1 then [3 * i] else []) ++
          (if s.Ry = 1 then [3 * i + 1] else []) ++
          (if s.Rz = 1 then [3 * i + 2] else [])) []

/-- free_dof = sorted(set(range(ndof)) - set(constrained_dof)): the
ascending list of unconstrained DOFs. -/
def freeDof (ndof : ℕ) (constrained : List ℕ) : List ℕ :=
  (List.range ndof).filter (fun d => !constrained.contains d)

/-- The reduced 3D matrix K_red (rows and columns sliced to free_dof). -/
noncomputable def reduceK3 (K : ℕ → ℕ → ℝ) (free : List ℕ) :
    Matrix (Fin free.length) (Fin free.length) ℝ := fun a b => K (free.get a) (free.get b)

/-- Expansion step 5 of solve_system: displacements = np.zeros(ndof);
displacements[free_dof[i]] = U_red[i]. -/
noncomputable def scatterDisp3 (free : List ℕ) (u : Fin free.length → Option ℝ) :
    ℕ → Option ℝ :=
  fun d =>
    match (free.zip (List.ofFn u)).find? (fun pr => pr.1 = d) with
    | some pr => pr.2
    | none => some 0

/-- solve_system of src/optimizer_3d/fem_solver.py.  The restraint-count
check (`if ndof > 0 and len(constrained_dof) < 6: pass`) is a no-op in the
source and contributes nothing here.  The numpy condition-number test
(`np.linalg.cond(K_red) > 1e12`, with its broad except also raising) is a
floating-point computation and is modelled by the caller-supplied predicate
illCond on the exact reduced matrix.  spsolve itself does not raise on a
singular matrix: should one slip past the condition check it NaN-fills the
solution, and the NaN values are scattered into the result. -/
noncomputable def solve_system (K : ℕ → ℕ → ℝ) (supports : List Support3Row)
    (loads : Option (List Load3Row)) (pts : List Point3Row) (ndof : ℕ)
    (illCond : (free : List ℕ) → Matrix (Fin free.length) (Fin free.length) ℝ → Bool) :
    Except String ((ℕ → Option ℝ) × List ℕ) :=
  let nodeIds := pts.map (fun p => p.Node)
  let F := buildF3 nodeIds loads
  let constrained := constrainedDof nodeIds supports
  let free := freeDof ndof constrained
  if free = [] then
    Except.ok (fun _ => some 0, free)
  else
    let Kred := reduceK3 K free
    if illCond free Kred then
      Except.error "Global stiffness matrix is singular or ill-conditioned. Structure is likely a mechanism or improperly supported."
    else
      Except.ok (scatterDisp3 free (TwoD.linSolve Kred (fun a => F (free.get a))), free)

/-- calculate_element_forces of src/optimizer_3d/fem_solver.py (NaN
displacements propagate to a NaN delta, force and stress, via
`Option.map` / `Option.map₂`). -/
noncomputable def elementForceRow (nodeIds : List ℕ) (displacements : ℕ → Option ℝ)
    (ed : ElemData) : Option StressRow := do
  let i1 ← idToIdx nodeIds ed.start
  let i2 ← idToIdx nodeIds ed.end_
  let delta := Option.map₂ (· + ·)
    (Option.map₂ (· + ·)
      ((Option.map₂ (· - ·) (displacements (3 * i2)) (displacements (3 * i1))).map
        (· * ed.cx))
      ((Option.map₂ (· - ·) (displacements (3 * i2 + 1)) (displacements (3 * i1 + 1))).map
        (· * ed.cy)))
    ((Option.map₂ (· - ·) (displacements (3 * i2 + 2)) (displacements (3 * i1 + 2))).map
      (· * ed.cz))
  let axial_force := delta.map (fun x => ed.k_local * x)
  pure { element := ed.element, axial_force := axial_force,
         axial_stress := axial_force.map (fun x => x / (ed.A : ℝ)), L := ed.L,
         A := (ed.A : ℝ), E := (ed.E : ℝ), I := (ed.I : ℝ), Pc := none }

/-- truss_analyze of src/optimizer_3d/fem_solver.py: the whole chain runs
inside try/except, and any failure is returned as an empty stresses
DataFrame with an empty displacement array (modelled as the zero vector). -/
noncomputable def truss_analyze (pts : List Point3Row) (trusses : List TrussRow)
    (supports : List Support3Row) (materials : List MaterialRow)
    (loads : Option (List Load3Row))
    (illCond : (free : List ℕ) → Matrix (Fin free.length) (Fin free.length) ℝ → Bool) :
    List StressRow × (ℕ → Option ℝ) :=
  match assemble_truss_stiffness pts trusses materials with
  | none => ([], fun _ => some 0)
  | some (Ked, ndof) =>
      match solve_system Ked.1 supports loads pts ndof illCond with
      | Except.error _ => ([], fun _ => some 0)
      | Except.ok (displacements, _) =>
          match (Ked.2).mapM (elementForceRow (pts.map (fun p => p.Node)) displacements) with
          | none => ([], fun _ => some 0)
          | some rows => (calculate_critical_buckling_force rows, displacements)

end ThreeD

namespace Optimize

/-!
Frame model for src/optimizer.py optimize_truss.  Pandas DataFrames are
mutable objects reached through references; the heap maps a reference
(an allocation index) to the table it holds.  `data.copy()` on a dict is a
shallow copy, so the copied dict holds the SAME points-table reference;
`DataFrame.copy()` allocates a fresh table.  scipy.optimize.minimize is an
external numeric routine and is modelled as an oracle that supplies the
sequence of candidate position vectors it evaluates and the final result.x
vector.  The routines called from objective_func (truss_analysis
get_objective and the solver chain) read the points table and never write
to it, so an objective evaluation only allocates its fresh copy.
-/

/-- A points table: the rows of a points DataFrame. -/
abbrev Table := List PointRow

/-- The heap of allocated tables; a reference is an index into it. -/
abbrev Heap := List Table

/-- Dereference a table (an unallocated reference reads as empty). -/
def readT (h : Heap) (r : ℕ) : Table := h.getD r []

/-- DataFrame.copy(): allocate a fresh table holding the given rows and
return the new heap and the fresh reference. -/
def alloc (h : Heap) (t : Table) : Heap × ℕ := (h ++ [t], h.length)

/-- The write loop `df.loc[df['Node'] == node_id, ['x','y']] =
positions[2 i : 2 i + 2]` over `enumerate(nodes_to_optimize)`; the flat
position vector is given as the list of its (x, y) pairs. -/
def update_positions (pts : Table) (nodes : List ℕ) (positions : List (ℚ × ℚ)) : Table :=
  (nodes.zip positions).foldl
    (fun acc p => acc.map (fun q =>
      if q.Node = p.1 then { q with x := p.2.1, y := p.2.2 } else q))
    pts

/-- One evaluation of objective_func: new_points_df = current points
table .copy(), the candidate positions are written into the fresh copy,
and get_objective only reads, so the heap effect is the one allocation. -/
def objectiveStep (h : Heap) (currentPoints : ℕ) (nodes : List ℕ)
    (cand : List (ℚ × ℚ)) : Heap :=
  (alloc h (update_positions (readT h currentPoints) nodes cand)).1

/-- optimize_truss of src/optimizer.py restricted to its effect on points
tables: current_data = data.copy() shares the input points reference; every
candidate evaluation writes into a fresh copy; final_points_df is another
fresh copy carrying result.x; the returned data dict holds that fresh
reference.  Returns the final heap and the returned points reference. -/
def optimize_truss (h : Heap) (dataPoints : ℕ) (nodes : List ℕ)
    (candidates : List (List (ℚ × ℚ))) (finalPositions : List (ℚ × ℚ)) : Heap × ℕ :=
  let currentPoints := dataPoints
  let h1 := candidates.foldl (fun hh c => objectiveStep hh currentPoints nodes c) h
  alloc h1 (update_positions (readT h1 currentPoints) nodes finalPositions)

end Optimize

/-! ## Concrete instances (inputs of counterexamples and witnesses) -/

/-- A stresses row before the Pc column exists: one member in compression. -/
noncomputable def c5in : StressRow := ⟨0, some (-1), some (-1), 1, 1, 1, 1, none⟩

/-- The row c5in after calculate_critical_buckling_force. -/
noncomputable def c5row : StressRow :=
  ⟨0, some (-1), some (-1), 1, 1, 1, 1, some (Real.pi ^ 2 * 1 * 1 / 1 ^ 2)⟩

/-- An analysis row for a member in tension (axial_force 5 > 0, Pc missing). -/
noncomputable def c7row : StressRow := ⟨0, some 5, some 5, 1, 1, 1, 1, none⟩

/-- An analysis row for a compressive member with utilization 2/1 = 2. -/
noncomputable def c7crow : StressRow := ⟨0, some (-2), some (-2), 1, 1, 1, 1, some 1⟩

/-- An analysis row for a compressive member with utilization 3/1 >= 1. -/
noncomputable def c3row : StressRow := ⟨0, some (-3), some (-3), 1, 1, 1, 1, some 1⟩

/-- An analysis row for a compressive member with utilization 1/2 < 1. -/
noncomputable def c3ok : StressRow := ⟨0, some (-1), some (-1), 1, 1, 1, 1, some 2⟩

/-- Two nodes, 1 m apart along x. -/
def exPts : List PointRow := [⟨0, 0, 0⟩, ⟨1, 1, 0⟩]

/-- One member joining nodes 0 and 1 with material 0. -/
def exTrusses : List TrussRow := [⟨0, 0, 1, 0⟩]

/-- A single material with E = A = I = 1 (unit stiffness). -/
def exMats : List MaterialRow := [⟨0, 1, 1, 1⟩]

/-- Node 0 fully fixed; node 1 free: 2 restrained DOFs in total, fewer than
dof_per_node + 1 = 3, and the member direction leaves node 1 free to move
transversally — a textbook mechanism. -/
def exSupports : List SupportRow := [⟨0, 1, 1⟩]

/-- Two distinct node ids at the SAME position (zero-length member). -/
def zPts : List PointRow := [⟨0, 0, 0⟩, ⟨1, 0, 0⟩]

/-- A member whose material_id 5 resolves to no row of exMats. -/
def uTrusses : List TrussRow := [⟨0, 0, 1, 5⟩]

/-- The spec-side count of restrained DOFs of the 2D supports table
(dof_per_node = 2): one per restraint flag equal to 1. -/
def restrainedCount (supports : List SupportRow) : ℕ :=
  (supports.map (fun s => (if s.Rx = 1 then 1 else 0) + (if s.Ry = 1 then 1 else 0))).sum

/-- The stiffness matrix assembled for exPts / exTrusses / exMats: the one
unit-stiffness member scattered at the DOFs of nodes 0 and 1. -/
noncomputable def exK : ℕ → ℕ → ℝ :=
  TwoD.scatterAdd4 (fun _ _ => 0) (TwoD.dofs2 0 1) (TwoD.k_global_element 1 1 0)

/-- The element record assembled for the exPts member. -/
noncomputable def exElem : TwoD.ElemData :=
  { element := 0, start := 0, end_ := 1, L := 1, cx := 1, cy := 0,
    E := 1, A := 1, I := 1, k_local := 1 }

/-- The displacement vector of the mechanism example: the two restrained
DOFs of node 0 (and every out-of-range index of the np.zeros vector) hold
the exact real zero, while the free DOFs 2 and 3 of node 1 hold the NaN
that the singular sparse solve produced. -/
noncomputable def exDisp : ℕ → Option ℝ :=
  fun d => if d = 2 ∨ d = 3 then none else some 0

/-- The stresses row the mechanism example produces: the member touches the
free node whose displacements are NaN, so the recovered axial force and
stress are NaN. -/
noncomputable def exStress : StressRow :=
  { element := 0, axial_force := none, axial_stress := none, L := 1, A := 1, E := 1,
    I := 1, Pc := none }

/-- Two distinct 3D node ids at the SAME position. -/
def z3Pts : List Point3Row := [⟨0, 0, 0, 0⟩, ⟨1, 0, 0, 0⟩]

/-- A single 3D node. -/
def p3one : List Point3Row := [⟨0, 0, 0, 0⟩]

/-- The single 3D node fully restrained (empty free-DOF set). -/
def s3full : List Support3Row := [⟨0, 1, 1, 1⟩]

/-! ## Helper lemmas -/

namespace Optimize

lemma readT_append_of_lt {h : Heap} {t : Table} {r : ℕ} (hr : r < h.length) :
    readT (h ++ [t]) r = readT h r := by
  simp only [readT, List.getD_eq_getElem?_getD]
  rw [List.getElem?_append, if_pos hr]

lemma length_objectiveStep (h : Heap) (cp : ℕ) (nodes : List ℕ) (c : List (ℚ × ℚ)) :
    (objectiveStep h cp nodes c).length = h.length + 1 := by
  simp [objectiveStep, alloc]

lemma length_le_foldl_objectiveStep (cp : ℕ) (nodes : List ℕ)
    (cands : List (List (ℚ × ℚ))) (h : Heap) :
    h.length ≤ (cands.foldl (fun hh c => objectiveStep hh cp nodes c) h).length := by
  induction cands generalizing h with
  | nil => simp
  | cons c rest ih =>
      refine le_trans ?_ (ih (objectiveStep h cp nodes c))
      rw [length_objectiveStep]
      omega

lemma readT_foldl_objectiveStep {cp : ℕ} {nodes : List ℕ}
    (cands : List (List (ℚ × ℚ))) (h : Heap) {r : ℕ} (hr : r < h.length) :
    readT (cands.foldl (fun hh c => objectiveStep hh cp nodes c) h) r = readT h r := by
  induction cands generalizing h with
  | nil => rfl
  | cons c rest ih =>
      have hr2 : r < (objectiveStep h cp nodes c).length := by
        rw [length_objectiveStep]; omega
      rw [List.foldl_cons, ih (objectiveStep h cp nodes c) hr2]
      exact readT_append_of_lt hr

end Optimize

namespace analysis

lemma compressive_pred_iff {r : StressRow} :
    (match r.axial_force with
      | some v => decide (v < 0)
      | none => false) = true ↔ ∃ v, r.axial_force = some v ∧ v < 0 := by
  cases h : r.axial_force with
  | none => simp
  | some v => simp

lemma mem_compressive {stresses : List StressRow} {r : StressRow} :
    r ∈ compressiveMembers stresses ↔
      r ∈ stresses ∧ ∃ v, r.axial_force = some v ∧ v < 0 := by
  rw [compressiveMembers, List.mem_filter, compressive_pred_iff]

lemma mem_dropna_comp {stresses : List StressRow} {r : StressRow} :
    r ∈ dropnaPc (compressiveMembers stresses) ↔
      r ∈ stresses ∧ (∃ v, r.axial_force = some v ∧ v < 0) ∧ r.Pc.isSome := by
  rw [dropnaPc, List.mem_filter, mem_compressive, and_assoc]

lemma muRow_eq_of_pos {r : StressRow} {v p : ℝ} (hv : r.axial_force = some v)
    (hp : r.Pc = some p) (hp0 : 0 < p) :
    muRow r = |v| / pcVal r := by
  rw [muRow, fVal, pcVal, hv, hp, Option.getD_some, Option.getD_some, abs_div,
    abs_of_pos hp0]

lemma gammaOf_pos {comp : List StressRow} (hne : comp ≠ [])
    (hall : ∀ r ∈ comp, (∃ v, r.axial_force = some v ∧ v < 0) ∧
      ∃ p, r.Pc = some p ∧ p ≠ 0) :
    0 < gammaOf comp := by
  have hmapne : ∀ (f : StressRow → ℝ), comp.map f ≠ [] := by
    intro f h
    exact hne (List.map_eq_nil_iff.1 h)
  have hfpos : ∀ r ∈ comp, 0 < |fVal r| := by
    intro r hr
    obtain ⟨⟨v, hv, hvlt⟩, _⟩ := hall r hr
    rw [fVal, hv, Option.getD_some]
    exact abs_pos.2 (ne_of_lt hvlt)
  have hden : 0 < (comp.map (fun r => |fVal r|)).sum := by
    refine List.sum_pos _ ?_ (hmapne _)
    intro x hx
    obtain ⟨r, hr, rfl⟩ := List.mem_map.1 hx
    exact hfpos r hr
  have hnum : 0 < (comp.map (fun r => muRow r * |fVal r|)).sum := by
    refine List.sum_pos _ ?_ (hmapne _)
    intro x hx
    obtain ⟨r, hr, rfl⟩ := List.mem_map.1 hx
    obtain ⟨⟨v, hv, hvlt⟩, p, hp, hp0⟩ := hall r hr
    have hmu : 0 < muRow r := by
      rw [muRow, fVal, pcVal, hv, hp, Option.getD_some, Option.getD_some]
      exact abs_pos.2 (div_ne_zero (ne_of_lt hvlt) hp0)
    exact mul_pos hmu (hfpos r hr)
  rw [gammaOf]
  simp only [if_pos (ne_of_gt hden)]
  exact div_pos hnum hden

lemma cov_ne_infty {stresses : List StressRow}
    (hshape : ∀ r ∈ stresses, ∀ v, r.axial_force = some v → v < 0 →
      ∃ p, r.Pc = some p ∧ p ≠ 0) :
    (calculate_buckling_indices stresses).coefficient_of_variation ≠ Metric.infty := by
  rw [calculate_buckling_indices]
  by_cases h : compressiveMembers stresses = [] ∨
      (compressiveMembers stresses).all (fun r => r.Pc.isNone) = true
  · simp only [if_pos h]
    intro hc
    exact Metric.noConfusion hc
  · simp only [if_neg h]
    push_neg at h
    obtain ⟨hne, hnall⟩ := h
    have hex : ∃ r ∈ compressiveMembers stresses, r.Pc.isSome := by
      by_contra hno
      push_neg at hno
      refine hnall (List.all_eq_true.2 ?_)
      intro r hr
      have h2 := hno r hr
      cases hPc : r.Pc with
      | none => simp
      | some p => rw [hPc] at h2; simp at h2
    obtain ⟨r, hr, hrs⟩ := hex
    have hdne : dropnaPc (compressiveMembers stresses) ≠ [] := by
      refine @List.ne_nil_of_mem _ r _ ?_
      simp [dropnaPc, List.mem_filter, hr, hrs]
    have hall : ∀ r ∈ dropnaPc (compressiveMembers stresses),
        (∃ v, r.axial_force = some v ∧ v < 0) ∧ ∃ p, r.Pc = some p ∧ p ≠ 0 := by
      intro q hq
      obtain ⟨hqs, ⟨v, hv, hvlt⟩, hqsome⟩ := mem_dropna_comp.1 hq
      exact ⟨⟨v, hv, hvlt⟩, hshape q hqs v hv hvlt⟩
    have hg := gammaOf_pos hdne hall
    simp only [if_pos (ne_of_gt hg)]
    intro hc
    exact Metric.noConfusion hc

end analysis

lemma scatter_symm_generic {ι : Type} [Fintype ι] (dof : ι → ℕ) (ke : ι → ι → ℝ)
    (hke : ∀ i j, ke i j = ke j i) (p q : ℕ) :
    (∑ i : ι, ∑ j : ι, if dof i = p ∧ dof j = q then ke i j else 0) =
      ∑ i : ι, ∑ j : ι, if dof i = q ∧ dof j = p then ke i j else 0 := by
  rw [Finset.sum_comm]
  refine Finset.sum_congr rfl fun i _ => Finset.sum_congr rfl fun j _ => ?_
  exact if_congr and_comm (hke j i) rfl

lemma scatter_outside_generic {ι : Type} [Fintype ι] {n : ℕ} (dof : ι → ℕ)
    (hdof : ∀ a, dof a < n) (ke : ι → ι → ℝ) (p q : ℕ) (hpq : n ≤ p ∨ n ≤ q) :
    (∑ i : ι, ∑ j : ι, if dof i = p ∧ dof j = q then ke i j else 0) = 0 := by
  refine Finset.sum_eq_zero fun i _ => Finset.sum_eq_zero fun j _ => ?_
  rw [if_neg]
  rintro ⟨hip, hjq⟩
  rcases hpq with hp | hq
  · exact absurd (hip ▸ hdof i) (not_lt.2 hp)
  · exact absurd (hjq ▸ hdof j) (not_lt.2 hq)

lemma foldlM_invariant {α β : Type _} {P : β → Prop} (f : β → α → Option β)
    (hf : ∀ acc acc2 a, f acc a = some acc2 → P acc → P acc2) :
    ∀ (l : List α) (init : β), P init → ∀ out : β,
      l.foldlM f init = some out → P out := by
  intro l
  induction l with
  | nil =>
      intro init hinit out h
      rw [List.foldlM_nil] at h
      rw [Option.pure_def, Option.some.injEq] at h
      exact h ▸ hinit
  | cons a t ih =>
      intro init hinit out h
      rw [List.foldlM_cons] at h
      cases hstep : f init a with
      | none =>
          rw [hstep] at h
          exact Option.noConfusion h
      | some acc2 =>
          rw [hstep] at h
          exact ih acc2 (hf init acc2 a hstep hinit) out h

lemma idToIdxAux_lt :
    ∀ (l : List ℕ) (nid i j : ℕ), idToIdxAux l nid i = some j → j < i + l.length := by
  intro l
  induction l with
  | nil =>
      intro nid i j h
      exact absurd h (by rw [idToIdxAux]; exact Option.noConfusion)
  | cons a t ih =>
      intro nid i j h
      rw [idToIdxAux] at h
      cases hr : idToIdxAux t nid (i + 1) with
      | some j2 =>
          rw [hr] at h
          rw [Option.some.injEq] at h
          subst h
          have := ih nid (i + 1) j2 hr
          simp only [List.length_cons]
          omega
      | none =>
          rw [hr] at h
          by_cases ha : a = nid
          · rw [if_pos ha, Option.some.injEq] at h
            subst h
            simp only [List.length_cons]
            omega
          · rw [if_neg ha] at h
            exact Option.noConfusion h

lemma idToIdx_lt {nodeIds : List ℕ} {nid i : ℕ} (h : idToIdx nodeIds nid = some i) :
    i < nodeIds.length := by
  have := idToIdxAux_lt nodeIds nid 0 i h
  omega

lemma find?_fst_zip_ne_none {α : Type _} {l : List ℕ} {l2 : List α} {d : ℕ}
    (hd : d ∈ l) (hlen : l.length ≤ l2.length) :
    (l.zip l2).find? (fun pr => pr.1 = d) ≠ none := by
  induction l generalizing l2 with
  | nil => cases hd
  | cons a t ih =>
      cases l2 with
      | nil => simp at hlen
      | cons b t2 =>
          rw [List.zip_cons_cons]
          by_cases had : a = d
          · rw [List.find?_cons_of_pos _ (by simp [had])]
            simp
          · rw [List.find?_cons_of_neg _ (by simp [had])]
            refine ih ?_ ?_
            · rcases List.mem_cons.1 hd with rfl | hmt
              · exact absurd rfl had
              · exact hmt
            · simpa using Nat.le_of_succ_le_succ hlen

namespace TwoD

lemma scatterDisp_of_not_mem {keep : List ℕ} (u : Fin keep.length → Option ℝ) {d : ℕ}
    (hd : d ∉ keep) : scatterDisp keep u d = some 0 := by
  rw [scatterDisp]
  have hnone : (keep.zip (List.ofFn u)).find? (fun pr => pr.1 = d) = none := by
    rw [List.find?_eq_none]
    intro pr hpr
    have h1 := (List.of_mem_zip hpr).1
    simp only [decide_eq_true_eq]
    intro he
    exact hd (he ▸ h1)
  rw [hnone]

lemma scatterDisp_none_of_mem {keep : List ℕ} {d : ℕ} (hd : d ∈ keep) :
    scatterDisp keep (fun _ => none) d = none := by
  rw [scatterDisp]
  cases hf : (keep.zip (List.ofFn (fun _ : Fin keep.length => (none : Option ℝ)))).find?
      (fun pr => pr.1 = d) with
  | none =>
      exact absurd hf (find?_fst_zip_ne_none hd (by simp))
  | some pr =>
      have hmem := List.mem_of_find?_eq_some hf
      have h2 := (List.of_mem_zip hmem).2
      rw [List.mem_ofFn] at h2
      obtain ⟨i, hi⟩ := h2
      simp [← hi]

lemma not_mem_keepOf_of_flagged {si : List (ℕ × SupportRow)} {d ndof : ℕ}
    (hd : flagged si d = true) : d ∉ keepOf ndof si := by
  intro hmem
  rw [keepOf, List.mem_filter] at hmem
  rw [hd] at hmem
  simp at hmem

lemma foldlM_eq_none {α β : Type _} (f : β → α → Option β) (l : List α) (m : α)
    (hm : m ∈ l) (hbad : ∀ acc, f acc m = none) :
    ∀ init, l.foldlM f init = none := by
  induction l with
  | nil => cases hm
  | cons a t ih =>
      intro init
      rw [List.foldlM_cons]
      rcases List.mem_cons.1 hm with rfl | hmt
      · rw [hbad init]
        rfl
      · cases hf : f init a with
        | none => rfl
        | some b => exact ih hmt b

lemma lenSq_nonneg (p1 p2 : PointRow) : 0 ≤ lenSq p1 p2 := by
  rw [lenSq]
  positivity

lemma sqrt_lenSq_eq_zero_iff {p1 p2 : PointRow} :
    Real.sqrt ((lenSq p1 p2 : ℚ) : ℝ) = 0 ↔ lenSq p1 p2 = 0 := by
  rw [Real.sqrt_eq_zero (by exact_mod_cast lenSq_nonneg p1 p2)]
  exact_mod_cast Iff.rfl

lemma assembleStep_skip {pts : List PointRow} {materials : List MaterialRow}
    {m : TrussRow} {i1 i2 : ℕ} {p1 p2 : PointRow}
    (h1 : idToIdx (pts.map fun p => p.Node) m.start = some i1)
    (h2 : idToIdx (pts.map fun p => p.Node) m.end_ = some i2)
    (h3 : findPoint pts m.start = some p1)
    (h4 : findPoint pts m.end_ = some p2)
    (hlen : lenSq p1 p2 = 0) (acc : (ℕ → ℕ → ℝ) × List ElemData) :
    assembleStep pts materials acc m = some acc := by
  rw [assembleStep]
  simp only [h1, h2, h3, h4, Option.bind_eq_bind', Option.some_bind]
  rw [if_pos (sqrt_lenSq_eq_zero_iff.2 hlen)]
  rfl

lemma assembleStep_bad_material {pts : List PointRow} {materials : List MaterialRow}
    {m : TrussRow} {i1 i2 : ℕ} {p1 p2 : PointRow}
    (h1 : idToIdx (pts.map fun p => p.Node) m.start = some i1)
    (h2 : idToIdx (pts.map fun p => p.Node) m.end_ = some i2)
    (h3 : findPoint pts m.start = some p1)
    (h4 : findPoint pts m.end_ = some p2)
    (hlen : lenSq p1 p2 ≠ 0)
    (hmat : materials.filter (fun mm => mm.material_id = m.material_id) = []) :
    ∀ acc, assembleStep pts materials acc m = none := by
  intro acc
  rw [assembleStep]
  simp only [h1, h2, h3, h4, Option.bind_eq_bind', Option.some_bind]
  rw [if_neg (fun h => hlen (sqrt_lenSq_eq_zero_iff.1 h))]
  rw [hmat]
  rfl

lemma k_global_element_symm (k cx cy : ℝ) (i j : Fin 4) :
    k_global_element k cx cy i j = k_global_element k cx cy j i := by
  fin_cases i <;> fin_cases j <;> simp [k_global_element]

lemma dofs2_lt {i1 i2 n : ℕ} (h1 : i1 < n) (h2 : i2 < n) :
    ∀ a, dofs2 i1 i2 a < 2 * n := by
  intro a
  fin_cases a <;> simp [dofs2] <;> omega

lemma scatterAdd4_symm {K : ℕ → ℕ → ℝ} (hK : ∀ p q, K p q = K q p)
    (dof : Fin 4 → ℕ) {ke : Fin 4 → Fin 4 → ℝ} (hke : ∀ i j, ke i j = ke j i)
    (p q : ℕ) : scatterAdd4 K dof ke p q = scatterAdd4 K dof ke q p := by
  rw [scatterAdd4, scatterAdd4, hK p q, scatter_symm_generic dof ke hke p q]

lemma scatterAdd4_outside {K : ℕ → ℕ → ℝ} {n : ℕ}
    (hK : ∀ p q, n ≤ p ∨ n ≤ q → K p q = 0) (dof : Fin 4 → ℕ)
    (hdof : ∀ a, dof a < n) (ke : Fin 4 → Fin 4 → ℝ) (p q : ℕ)
    (hpq : n ≤ p ∨ n ≤ q) : scatterAdd4 K dof ke p q = 0 := by
  rw [scatterAdd4, hK p q hpq, scatter_outside_generic dof hdof ke p q hpq, add_zero]

/-- The two outcomes of a successful 2D assembly step: the zero-length skip
(accumulator unchanged) or a scatter-add of the element stiffness at the
DOFs of two resolved node indices. -/
lemma assembleStep_cases {pts : List PointRow} {materials : List MaterialRow}
    {acc acc2 : (ℕ → ℕ → ℝ) × List ElemData} {m : TrussRow}
    (hstep : assembleStep pts materials acc m = some acc2) :
    acc2 = acc ∨
    ∃ i1 i2 klocal cx cy edrec,
      idToIdx (pts.map fun p => p.Node) m.start = some i1 ∧
      idToIdx (pts.map fun p => p.Node) m.end_ = some i2 ∧
      acc2 = (scatterAdd4 acc.1 (dofs2 i1 i2) (k_global_element klocal cx cy),
        acc.2 ++ [edrec]) := by
  rw [assembleStep] at hstep
  simp only [Option.bind_eq_bind', Option.bind_eq_some'] at hstep
  obtain ⟨i1, h1, i2, h2, p1, h3, p2, h4, hrest⟩ := hstep
  by_cases hL : Real.sqrt ((lenSq p1 p2 : ℚ) : ℝ) = 0
  · rw [if_pos hL, Option.pure_def, Option.some.injEq] at hrest
    exact Or.inl hrest.symm
  · rw [if_neg hL] at hrest
    simp only [Option.bind_eq_bind', Option.bind_eq_some', Option.pure_def,
      Option.some.injEq] at hrest
    obtain ⟨mat, hmat, hacc2⟩ := hrest
    exact Or.inr ⟨i1, i2, _, _, _, _, h1, h2, hacc2.symm⟩

end TwoD

namespace ThreeD

lemma scatterDisp3_of_not_mem {free : List ℕ} (u : Fin free.length → Option ℝ) {d : ℕ}
    (hd : d ∉ free) : scatterDisp3 free u d = some 0 := by
  rw [scatterDisp3]
  have hnone : (free.zip (List.ofFn u)).find? (fun pr => pr.1 = d) = none := by
    rw [List.find?_eq_none]
    intro pr hpr
    have h1 := (List.of_mem_zip hpr).1
    simp only [decide_eq_true_eq]
    intro he
    exact hd (he ▸ h1)
  rw [hnone]

lemma not_mem_freeDof_of_constrained {constrained : List ℕ} {d ndof : ℕ}
    (hd : d ∈ constrained) : d ∉ freeDof ndof constrained := by
  intro hmem
  rw [freeDof, List.mem_filter] at hmem
  have h2 := hmem.2
  simp [List.contains_eq_any_beq, List.any_eq_true, hd] at h2

lemma assembleStep3_total {pts : List Point3Row} {materials : List MaterialRow}
    {m : TrussRow} {i1 i2 : ℕ} {p1 p2 : Point3Row} {mat : MaterialRow}
    (h1 : idToIdx (pts.map fun p => p.Node) m.start = some i1)
    (h2 : idToIdx (pts.map fun p => p.Node) m.end_ = some i2)
    (h3 : findPoint3 pts m.start = some p1)
    (h4 : findPoint3 pts m.end_ = some p2)
    (hm : materialAt materials m.material_id = some mat)
    (acc : (ℕ → ℕ → ℝ) × List ElemData) :
    (assembleStep pts materials acc m).isSome = true := by
  rw [assembleStep]
  simp only [h1, h2, h3, h4, hm, Option.bind_eq_bind', Option.some_bind]
  rfl

lemma assembleStep3_fallback {pts : List Point3Row} {mh : MaterialRow}
    {rest : List MaterialRow} {m : TrussRow} {i1 i2 : ℕ} {p1 p2 : Point3Row}
    (h1 : idToIdx (pts.map fun p => p.Node) m.start = some i1)
    (h2 : idToIdx (pts.map fun p => p.Node) m.end_ = some i2)
    (h3 : findPoint3 pts m.start = some p1)
    (h4 : findPoint3 pts m.end_ = some p2)
    (hidx : ¬ m.material_id < (mh :: rest).length)
    (acc : (ℕ → ℕ → ℝ) × List ElemData) :
    ∃ Knew ed, assembleStep pts (mh :: rest) acc m = some (Knew, acc.2 ++ [ed]) ∧
      ed.E = mh.E ∧ ed.A = mh.A ∧ ed.I = mh.I := by
  have hm : materialAt (mh :: rest) m.material_id = some mh := by
    rw [materialAt, dif_neg hidx]
    rfl
  rw [assembleStep]
  simp only [h1, h2, h3, h4, hm, Option.bind_eq_bind', Option.some_bind]
  exact ⟨_, _, rfl, rfl, rfl, rfl⟩

lemma K_e_symm (k : ℝ) (c : Fin 3 → ℝ) (i j : Fin 6) : K_e k c i j = K_e k c j i := by
  simp only [K_e, C_matrix]
  ring

lemma dofs3_lt {i1 i2 n : ℕ} (h1 : i1 < n) (h2 : i2 < n) :
    ∀ a, dofs3 i1 i2 a < 3 * n := by
  intro a
  fin_cases a
  · show 3 * i1 < 3 * n
    omega
  · show 3 * i1 + 1 < 3 * n
    omega
  · show 3 * i1 + 2 < 3 * n
    omega
  · show 3 * i2 < 3 * n
    omega
  · show 3 * i2 + 1 < 3 * n
    omega
  · show 3 * i2 + 2 < 3 * n
    omega

lemma scatterAdd6_symm {K : ℕ → ℕ → ℝ} (hK : ∀ p q, K p q = K q p)
    (dof : Fin 6 → ℕ) {ke : Fin 6 → Fin 6 → ℝ} (hke : ∀ i j, ke i j = ke j i)
    (p q : ℕ) : scatterAdd6 K dof ke p q = scatterAdd6 K dof ke q p := by
  rw [scatterAdd6, scatterAdd6, hK p q, scatter_symm_generic dof ke hke p q]

lemma scatterAdd6_outside {K : ℕ → ℕ → ℝ} {n : ℕ}
    (hK : ∀ p q, n ≤ p ∨ n ≤ q → K p q = 0) (dof : Fin 6 → ℕ)
    (hdof : ∀ a, dof a < n) (ke : Fin 6 → Fin 6 → ℝ) (p q : ℕ)
    (hpq : n ≤ p ∨ n ≤ q) : scatterAdd6 K dof ke p q = 0 := by
  rw [scatterAdd6, hK p q hpq, scatter_outside_generic dof hdof ke p q hpq, add_zero]

/-- A successful 3D assembly step is always a scatter-add of the element
stiffness at the DOFs of two resolved node indices (there is no skip). -/
lemma assembleStep3_cases {pts : List Point3Row} {materials : List MaterialRow}
    {acc acc2 : (ℕ → ℕ → ℝ) × List ElemData} {m : TrussRow}
    (hstep : assembleStep pts materials acc m = some acc2) :
    ∃ i1 i2 klocal c edrec,
      idToIdx (pts.map fun p => p.Node) m.start = some i1 ∧
      idToIdx (pts.map fun p => p.Node) m.end_ = some i2 ∧
      acc2 = (scatterAdd6 acc.1 (dofs3 i1 i2) (K_e klocal c), acc.2 ++ [edrec]) := by
  rw [assembleStep] at hstep
  simp only [Option.bind_eq_bind', Option.bind_eq_some', Option.pure_def,
    Option.some.injEq] at hstep
  obtain ⟨i1, h1, i2, h2, p1, h3, p2, h4, mat, hmat, hacc2⟩ := hstep
  exact ⟨i1, i2, _, _, _, h1, h2, hacc2.symm⟩

end ThreeD

lemma assembleStep_ex :
    TwoD.assembleStep exPts exMats (fun _ _ => 0, []) ⟨0, 0, 1, 0⟩ = some (exK, [exElem]) := by
  have hcast : ((TwoD.lenSq ⟨0, 0, 0⟩ ⟨1, 1, 0⟩ : ℚ) : ℝ) = 1 := by
    norm_num [TwoD.lenSq]
  have h1 : idToIdx (exPts.map fun p => p.Node) (0 : ℕ) = some 0 := rfl
  have h2 : idToIdx (exPts.map fun p => p.Node) (1 : ℕ) = some 1 := rfl
  have h3 : findPoint exPts (0 : ℕ) = some ⟨0, 0, 0⟩ := rfl
  have h4 : findPoint exPts (1 : ℕ) = some ⟨1, 1, 0⟩ := rfl
  have h5 : ((exMats.filter fun mm => mm.material_id = (0 : ℕ)).head?) =
      some ⟨0, 1, 1, 1⟩ := rfl
  rw [TwoD.assembleStep]
  simp only [h1, h2, h3, h4, Option.bind_eq_bind', Option.some_bind]
  rw [hcast, Real.sqrt_one]
  rw [if_neg one_ne_zero]
  simp only [h5, Option.some_bind, Option.pure_def, Option.some.injEq, Prod.mk.injEq,
    exK, exElem]
  have ha : ((1 - 0 : ℚ) : ℝ) / 1 = 1 := by norm_num
  have hb : ((0 - 0 : ℚ) : ℝ) / 1 = 0 := by norm_num
  have hc : ((1 : ℚ) : ℝ) * ((1 : ℚ) : ℝ) / 1 = 1 := by norm_num
  rw [ha, hb, hc]
  exact ⟨rfl, rfl⟩

/-- The assembled example stiffness: the whole 2D assembly of the mechanism
model evaluates to exK with the single element record. -/
lemma assemble_ex :
    TwoD.assemble_truss_stiffness exPts exTrusses exMats = some (exK, [exElem]) := by
  rw [TwoD.assemble_truss_stiffness]
  simp only [exTrusses]
  rw [List.foldlM_cons, assembleStep_ex]
  rfl

lemma exK_22 : exK 2 2 = 1 := by
  simp [exK, TwoD.scatterAdd4, TwoD.dofs2, TwoD.k_global_element, Fin.sum_univ_four]

lemma exK_23 : exK 2 3 = 0 := by
  simp [exK, TwoD.scatterAdd4, TwoD.dofs2, TwoD.k_global_element, Fin.sum_univ_four]

lemma exK_32 : exK 3 2 = 0 := by
  simp [exK, TwoD.scatterAdd4, TwoD.dofs2, TwoD.k_global_element, Fin.sum_univ_four]

lemma exK_33 : exK 3 3 = 0 := by
  simp [exK, TwoD.scatterAdd4, TwoD.dofs2, TwoD.k_global_element, Fin.sum_univ_four]

/-- The reduced matrix of the mechanism example is singular: restraining
node 0 leaves node 1 free, and the member only resists motion along its
axis, so the reduced 2x2 block has determinant 1 * 0 - 0 * 0 = 0. -/
lemma det_ex :
    (TwoD.reduceK exK
      (TwoD.keepOf (2 * exPts.length) [(0, (⟨0, 1, 1⟩ : SupportRow))])).det = 0 := by
  rw [show TwoD.keepOf (2 * exPts.length) [(0, (⟨0, 1, 1⟩ : SupportRow))] = [2, 3] from rfl]
  rw [Matrix.det_fin_two]
  show exK 2 2 * exK 3 3 - exK 2 3 * exK 3 2 = 0
  rw [exK_22, exK_23, exK_32, exK_33]
  norm_num

/-- The singular reduced solve of the mechanism example NaN-fills its
result for any right-hand side. -/
lemma disp_ex (b : Fin (TwoD.keepOf (2 * exPts.length)
      [(0, (⟨0, 1, 1⟩ : SupportRow))]).length → ℝ) :
    TwoD.scatterDisp (TwoD.keepOf (2 * exPts.length) [(0, (⟨0, 1, 1⟩ : SupportRow))])
      (TwoD.linSolve (TwoD.reduceK exK
        (TwoD.keepOf (2 * exPts.length) [(0, (⟨0, 1, 1⟩ : SupportRow))])) b) =
    exDisp := by
  funext d
  rw [TwoD.linSolve, if_pos det_ex]
  by_cases hk : d ∈ TwoD.keepOf (2 * exPts.length) [(0, (⟨0, 1, 1⟩ : SupportRow))]
  · rw [TwoD.scatterDisp_none_of_mem hk]
    have hm : d ∈ ([2, 3] : List ℕ) := hk
    have h23 : d = 2 ∨ d = 3 := by
      simpa using hm
    rw [exDisp, if_pos h23]
  · rw [TwoD.scatterDisp_of_not_mem _ hk]
    have h23 : ¬ (d = 2 ∨ d = 3) := by
      intro h
      apply hk
      rcases h with rfl | rfl
      · decide
      · decide
    rw [exDisp, if_neg h23]

lemma recover_ex :
    TwoD.recoverRow (exPts.map fun p => p.Node) exDisp exElem = some exStress := by
  have h1 : idToIdx (exPts.map fun p => p.Node) (0 : ℕ) = some 0 := rfl
  have h2 : idToIdx (exPts.map fun p => p.Node) (1 : ℕ) = some 1 := rfl
  have hd2 : exDisp 2 = none := by
    rw [exDisp]
    norm_num
  have hd3 : exDisp 3 = none := by
    rw [exDisp]
    norm_num
  rw [TwoD.recoverRow]
  simp only [exElem, h1, h2, Option.bind_eq_bind', Option.some_bind, Option.pure_def,
    Option.some.injEq]
  norm_num [hd2, hd3, exStress, StressRow.mk.injEq]

/-- The whole 2D boundary-condition solve of the mechanism example: the
reduced solve is singular, spsolve NaN-fills it, the NaN values land on the
free DOFs, and the member force recovered from them is NaN. -/
lemma calc_ex :
    TwoD.calculate_axial_forces_and_displacements exK [exElem] exPts exSupports none =
      some (exDisp, [exStress]) := by
  have hF : TwoD.buildF (exPts.map fun p => p.Node) none = some (fun _ => 0) := rfl
  have hsi : TwoD.supIdxOf (exPts.map fun p => p.Node) exSupports =
      some [(0, ⟨0, 1, 1⟩)] := rfl
  rw [TwoD.calculate_axial_forces_and_displacements]
  simp only [hF, hsi, Option.bind_eq_bind', Option.some_bind]
  rw [disp_ex]
  simp only [List.mapM_cons, List.mapM_nil, recover_ex, Option.bind_eq_bind',
    Option.some_bind, Option.pure_def]

/-! ## Claims -/

/-- C10: optimize_truss never mutates its input points table — after the
whole run (every objective evaluation plus the final rebuild) the table
reachable from the input reference is unchanged, and the points reference
carried by the returned data is a different (freshly allocated) one. -/
theorem C10_no_input_mutation (h : Optimize.Heap) (r : ℕ) (nodes : List ℕ)
    (cands : List (List (ℚ × ℚ))) (finalPositions : List (ℚ × ℚ))
    (hr : r < h.length) :
    Optimize.readT (Optimize.optimize_truss h r nodes cands finalPositions).1 r =
        Optimize.readT h r ∧
    (Optimize.optimize_truss h r nodes cands finalPositions).2 ≠ r := by
  have hlen := Optimize.length_le_foldl_objectiveStep r nodes cands h
  have hr1 : r < (cands.foldl (fun hh c => Optimize.objectiveStep hh r nodes c) h).length :=
    lt_of_lt_of_le hr hlen
  constructor
  · show Optimize.readT (_ ++ [_]) r = _
    rw [Optimize.readT_append_of_lt hr1]
    exact Optimize.readT_foldl_objectiveStep cands h hr
  · exact Ne.symm (Nat.ne_of_lt hr1)

/-- C10 witness: a one-table heap, optimizing node 0 over one candidate;
the input table reference 0 is valid, its content survives the run, and the
returned reference is fresh. -/
theorem C10_no_input_mutation_witness :
    0 < ([[(⟨0, 0, 0⟩ : PointRow)]] : Optimize.Heap).length ∧
    (Optimize.readT
        (Optimize.optimize_truss [[⟨0, 0, 0⟩]] 0 [0] [[(1, 1)]] [(2, 2)]).1 0 =
      Optimize.readT [[⟨0, 0, 0⟩]] 0 ∧
    (Optimize.optimize_truss [[⟨0, 0, 0⟩]] 0 [0] [[(1, 1)]] [(2, 2)]).2 ≠ 0) :=
  ⟨by decide, C10_no_input_mutation [[⟨0, 0, 0⟩]] 0 [0] [[(1, 1)]] [(2, 2)] (by decide)⟩

/-- C5: after calculate_critical_buckling_force, every row with negative
axial force carries exactly Pc = pi^2 E I / L^2, and every row with
nonnegative axial force carries the missing value none (never a 0 or an
infinity usable in arithmetic). -/
theorem C5_pc_exactly_on_compression (stresses : List StressRow) (r : StressRow)
    (hr : r ∈ calculate_critical_buckling_force stresses) :
    (∀ v, r.axial_force = some v → v < 0 →
        r.Pc = some (Real.pi ^ 2 * r.E * r.I / r.L ^ 2)) ∧
    (∀ v, r.axial_force = some v → 0 ≤ v → r.Pc = none) ∧
    (r.axial_force = none → r.Pc = none) := by
  obtain ⟨r0, hr0, rfl⟩ := List.mem_map.1 hr
  refine ⟨?_, ?_, ?_⟩
  · intro v hv hneg
    have hv' : r0.axial_force = some v := hv
    show (match r0.axial_force with
      | some w => if w < 0 then some (Real.pi ^ 2 * r0.E * r0.I / r0.L ^ 2) else none
      | none => none) = some (Real.pi ^ 2 * r0.E * r0.I / r0.L ^ 2)
    rw [hv']
    exact if_pos hneg
  · intro v hv hpos
    have hv' : r0.axial_force = some v := hv
    show (match r0.axial_force with
      | some w => if w < 0 then some (Real.pi ^ 2 * r0.E * r0.I / r0.L ^ 2) else none
      | none => none) = none
    rw [hv']
    exact if_neg (not_lt.2 hpos)
  · intro hv
    have hv' : r0.axial_force = none := hv
    show (match r0.axial_force with
      | some w => if w < 0 then some (Real.pi ^ 2 * r0.E * r0.I / r0.L ^ 2) else none
      | none => none) = none
    rw [hv']

/-- C5 witness: the compressive row c5in receives exactly the Euler load
and would receive none were its force nonnegative or missing. -/
theorem C5_pc_exactly_on_compression_witness :
    c5row.axial_force = some (-1) ∧ (-1 : ℝ) < 0 ∧
    c5row.Pc = some (Real.pi ^ 2 * c5row.E * c5row.I / c5row.L ^ 2) :=
  ⟨rfl, by norm_num,
    (C5_pc_exactly_on_compression [c5in] c5row (by
        simp only [calculate_critical_buckling_force, c5in, c5row, List.map_cons,
          List.map_nil, List.mem_singleton, StressRow.mk.injEq]
        norm_num)).1 (-1) rfl (by norm_num)⟩

/-- C7 counterexample: for a stresses table whose compressive set S is
empty, the code returns coefficient_of_variation 0.0, an ordinary finite
value — not the undefined/infinite value the claim requires for the empty
case. -/
theorem C7_counterexample :
    analysis.compressiveMembers [c7row] = [] ∧
    (analysis.calculate_buckling_indices [c7row]).coefficient_of_variation =
        Metric.val 0 ∧
    Metric.val 0 ≠ Metric.infty := by
  have h1 : analysis.compressiveMembers [c7row] = [] := by
    simp only [analysis.compressiveMembers, c7row, List.filter]
    norm_num
  refine ⟨h1, ?_, fun hc => Metric.noConfusion hc⟩
  rw [analysis.calculate_buckling_indices]
  rw [if_pos (Or.inl h1)]

/-- C7 (amended): gamma is the weighted mean Σ(w μ)/Σ(w) with w = |force|
whenever the compressive set is nonempty (the denominator guard never
fires), gamma of an empty set is 0; the returned coefficient of variation
is s/gamma when gamma is nonzero, float('inf') when gamma = 0 with a
nonempty post-dropna compressive set, but exactly 0 — not undefined or
infinite — when the compressive set is empty. -/
theorem C7_gamma_and_cov (stresses : List StressRow) (comp : List StressRow) :
    (comp ≠ [] → (∀ r ∈ comp, ∃ v, r.axial_force = some v ∧ v < 0) →
        analysis.gammaOf comp =
          ((comp.map fun r => analysis.muRow r * |analysis.fVal r|).sum) /
            ((comp.map fun r => |analysis.fVal r|).sum)) ∧
    analysis.gammaOf [] = 0 ∧
    (analysis.compressiveMembers stresses = [] →
        (analysis.calculate_buckling_indices stresses).coefficient_of_variation =
          Metric.val 0) ∧
    (¬(analysis.compressiveMembers stresses = [] ∨
          (analysis.compressiveMembers stresses).all (fun r => r.Pc.isNone) = true) →
        analysis.gammaOf (analysis.dropnaPc (analysis.compressiveMembers stresses)) = 0 →
        (analysis.calculate_buckling_indices stresses).coefficient_of_variation =
          Metric.infty) ∧
    (¬(analysis.compressiveMembers stresses = [] ∨
          (analysis.compressiveMembers stresses).all (fun r => r.Pc.isNone) = true) →
        analysis.gammaOf (analysis.dropnaPc (analysis.compressiveMembers stresses)) ≠ 0 →
        (analysis.calculate_buckling_indices stresses).coefficient_of_variation =
          Metric.val
            (Real.sqrt (analysis.varianceOf
                (analysis.dropnaPc (analysis.compressiveMembers stresses))) /
              analysis.gammaOf (analysis.dropnaPc (analysis.compressiveMembers stresses)))) := by
  refine ⟨?_, ?_, ?_, ?_, ?_⟩
  · intro hne hall
    have hden : 0 < (comp.map (fun r => |analysis.fVal r|)).sum := by
      refine List.sum_pos _ ?_ (fun h => hne (List.map_eq_nil_iff.1 h))
      intro x hx
      obtain ⟨q, hq, rfl⟩ := List.mem_map.1 hx
      obtain ⟨v, hv, hvlt⟩ := hall q hq
      rw [analysis.fVal, hv, Option.getD_some]
      exact abs_pos.2 (ne_of_lt hvlt)
    rw [analysis.gammaOf]
    simp only [if_pos (ne_of_gt hden)]
  · rw [analysis.gammaOf]
    simp
  · intro h1
    rw [analysis.calculate_buckling_indices, if_pos (Or.inl h1)]
  · intro hguard hg
    rw [analysis.calculate_buckling_indices]
    simp only [if_neg hguard]
    rw [if_neg (fun hne => hne hg)]
  · intro hguard hg
    rw [analysis.calculate_buckling_indices]
    simp only [if_neg hguard]
    rw [if_pos hg]

/-- C7 witness: the weighted-mean formula applied to a one-member
compressive set, and the empty-compressive-set output. -/
theorem C7_gamma_and_cov_witness :
    analysis.gammaOf [c7crow] =
      (([c7crow].map fun r => analysis.muRow r * |analysis.fVal r|).sum) /
        (([c7crow].map fun r => |analysis.fVal r|).sum) ∧
    (analysis.calculate_buckling_indices [c7row]).coefficient_of_variation =
      Metric.val 0 :=
  ⟨(C7_gamma_and_cov [c7row] [c7crow]).1 (by simp)
      (by
        intro r hr
        rw [List.mem_singleton] at hr
        subst hr
        exact ⟨-2, rfl, by norm_num⟩),
   (C7_gamma_and_cov [c7row] [c7crow]).2.2.1
      (by
        simp only [analysis.compressiveMembers, c7row, List.filter]
        norm_num)⟩

/-- C3: the buckling penalty of an analysis-shaped stresses table (every
compressive row carries a positive Pc) is exactly 100 as soon as one
compressive member has utilization |force|/Pc >= 1 — independent of how far
above 1 it is —, exactly 0 when no compressive member reaches 1, and the
maximum penalty 1e6 when the analysis failed (empty table). -/
theorem C3_buckling_penalty (stresses : List StressRow)
    (hshape : ∀ r ∈ stresses, ∀ v, r.axial_force = some v → v < 0 →
      ∃ p, r.Pc = some p ∧ 0 < p) :
    (stresses = [] → analysis.calculate_buckling_penalty stresses = 1000000) ∧
    ((∃ r ∈ stresses, ∃ v, r.axial_force = some v ∧ v < 0 ∧
        1 ≤ |v| / analysis.pcVal r) →
        analysis.calculate_buckling_penalty stresses = 100) ∧
    (stresses ≠ [] →
      (∀ r ∈ stresses, ∀ v, r.axial_force = some v → v < 0 →
        |v| / analysis.pcVal r < 1) →
        analysis.calculate_buckling_penalty stresses = 0) := by
  have key : (analysis.dropnaPc (analysis.compressiveMembers stresses)).any
      (fun r => decide (1 ≤ analysis.muRow r)) = true ↔
      ∃ r ∈ stresses, ∃ v, r.axial_force = some v ∧ v < 0 ∧
        1 ≤ |v| / analysis.pcVal r := by
    rw [List.any_eq_true]
    constructor
    · rintro ⟨r, hr, hm⟩
      obtain ⟨hrs, ⟨v, hv, hvlt⟩, hsome⟩ := analysis.mem_dropna_comp.1 hr
      obtain ⟨p, hp, hp0⟩ := hshape r hrs v hv hvlt
      rw [decide_eq_true_eq] at hm
      exact ⟨r, hrs, v, hv, hvlt, by rwa [← analysis.muRow_eq_of_pos hv hp hp0]⟩
    · rintro ⟨r, hrs, v, hv, hvlt, hm⟩
      obtain ⟨p, hp, hp0⟩ := hshape r hrs v hv hvlt
      refine ⟨r, analysis.mem_dropna_comp.2 ⟨hrs, ⟨v, hv, hvlt⟩, by simp [hp]⟩, ?_⟩
      rw [decide_eq_true_eq, analysis.muRow_eq_of_pos hv hp hp0]
      exact hm
  refine ⟨?_, ?_, ?_⟩
  · intro h
    rw [analysis.calculate_buckling_penalty, if_pos h]
  · intro hex
    have hne : stresses ≠ [] := by
      obtain ⟨r, hrs, _⟩ := hex
      exact List.ne_nil_of_mem hrs
    rw [analysis.calculate_buckling_penalty, if_neg hne, if_pos (key.2 hex)]
  · intro hne hall
    have hnot : ¬ ((analysis.dropnaPc (analysis.compressiveMembers stresses)).any
        (fun r => decide (1 ≤ analysis.muRow r)) = true) := by
      intro hany
      obtain ⟨r, hrs, v, hv, hvlt, hm⟩ := key.1 hany
      exact absurd hm (not_le.2 (hall r hrs v hv hvlt))
    rw [analysis.calculate_buckling_penalty, if_neg hne, if_neg hnot]

/-- C3 witness: a single compressive member at utilization 3 yields exactly
100, and the empty (failed-analysis) table yields exactly 1e6. -/
theorem C3_buckling_penalty_witness :
    analysis.calculate_buckling_penalty [c3row] = 100 ∧
    analysis.calculate_buckling_penalty [] = 1000000 :=
  ⟨(C3_buckling_penalty [c3row]
        (by
          intro r hr v _ _
          rw [List.mem_singleton] at hr
          subst hr
          exact ⟨1, rfl, one_pos⟩)).2.1
      ⟨c3row, by simp, -3, rfl, by norm_num, by norm_num [c3row, analysis.pcVal]⟩,
   (C3_buckling_penalty [] (by simp)).1 rfl⟩

/-- C8 counterexample: at the all-zero weight vector — a non-negative
vector in which every (hence any chosen) weight is 0 — the 3D scorer
returns float('inf'), not the weighted sum of the remaining terms divided
by the remaining total weight (which would be the finite 0/0-guarded
value); so the claim's formula fails there for the 3D scorer. -/
theorem C8_counterexample :
    analysis.score3d 1 2 3 4 5 ⟨0, 0, 0, 0, 0⟩ = Metric.infty ∧
    Metric.infty ≠
      Metric.val ((2 * (0:ℝ) + 3 * 0 + 4 * 0 + 5 * 0) / (0 + 0 + 0 + 0)) := by
  constructor
  · rw [analysis.score3d, if_neg]
    rw [analysis.totalWeight]
    norm_num
  · intro hc
    exact Metric.noConfusion hc

/-- C8 (amended): setting any one of the five objective weights to 0
removes its term: the 2D score equals the weighted sum of the remaining
four terms always, and the 3D score equals that sum divided by the
remaining total weight whenever the total weight is positive — in either
case the result does not depend on the disabled metric's value; but when
the total weight is not positive (in particular at the all-zero weight
vector) the 3D scorer returns float('inf') instead of that quotient.
The only metric the code can ever make infinite, the coefficient of
variation, is never float('inf') on an analysis-shaped stresses table
(its gamma = 0 branch is unreachable), so the infinite-metric case of the
claim is vacuous. -/
theorem C8_zero_weight_disables :
    (∀ stresses : List StressRow,
        (∀ r ∈ stresses, ∀ v, r.axial_force = some v → v < 0 →
          ∃ p, r.Pc = some p ∧ p ≠ 0) →
        (analysis.calculate_buckling_indices stresses).coefficient_of_variation ≠
          Metric.infty) ∧
    (∀ bdf pen usage cov force : ℝ, ∀ w : analysis.Weights,
        (w.buckling_distribution_factor = 0 →
            analysis.score2d bdf pen usage cov force w =
              pen * w.buckling_penalty + usage * w.material_usage +
                cov * w.compressive_uniformity + force * w.average_force_magnitude) ∧
        (w.buckling_penalty = 0 →
            analysis.score2d bdf pen usage cov force w =
              bdf * w.buckling_distribution_factor + usage * w.material_usage +
                cov * w.compressive_uniformity + force * w.average_force_magnitude) ∧
        (w.material_usage = 0 →
            analysis.score2d bdf pen usage cov force w =
              bdf * w.buckling_distribution_factor + pen * w.buckling_penalty +
                cov * w.compressive_uniformity + force * w.average_force_magnitude) ∧
        (w.compressive_uniformity = 0 →
            analysis.score2d bdf pen usage cov force w =
              bdf * w.buckling_distribution_factor + pen * w.buckling_penalty +
                usage * w.material_usage + force * w.average_force_magnitude) ∧
        (w.average_force_magnitude = 0 →
            analysis.score2d bdf pen usage cov force w =
              bdf * w.buckling_distribution_factor + pen * w.buckling_penalty +
                usage * w.material_usage + cov * w.compressive_uniformity)) ∧
    (∀ bdf pen usage cov force : ℝ, ∀ w : analysis.Weights,
        0 < analysis.totalWeight w →
        (w.buckling_distribution_factor = 0 →
            analysis.score3d bdf pen usage cov force w =
              Metric.val ((pen * w.buckling_penalty + usage * w.material_usage +
                  cov * w.compressive_uniformity + force * w.average_force_magnitude) /
                (w.buckling_penalty + w.material_usage + w.compressive_uniformity +
                  w.average_force_magnitude))) ∧
        (w.buckling_penalty = 0 →
            analysis.score3d bdf pen usage cov force w =
              Metric.val ((bdf * w.buckling_distribution_factor + usage * w.material_usage +
                  cov * w.compressive_uniformity + force * w.average_force_magnitude) /
                (w.buckling_distribution_factor + w.material_usage +
                  w.compressive_uniformity + w.average_force_magnitude))) ∧
        (w.material_usage = 0 →
            analysis.score3d bdf pen usage cov force w =
              Metric.val ((bdf * w.buckling_distribution_factor + pen * w.buckling_penalty +
                  cov * w.compressive_uniformity + force * w.average_force_magnitude) /
                (w.buckling_distribution_factor + w.buckling_penalty +
                  w.compressive_uniformity + w.average_force_magnitude))) ∧
        (w.compressive_uniformity = 0 →
            analysis.score3d bdf pen usage cov force w =
              Metric.val ((bdf * w.buckling_distribution_factor + pen * w.buckling_penalty +
                  usage * w.material_usage + force * w.average_force_magnitude) /
                (w.buckling_distribution_factor + w.buckling_penalty + w.material_usage +
                  w.average_force_magnitude))) ∧
        (w.average_force_magnitude = 0 →
            analysis.score3d bdf pen usage cov force w =
              Metric.val ((bdf * w.buckling_distribution_factor + pen * w.buckling_penalty +
                  usage * w.material_usage + cov * w.compressive_uniformity) /
                (w.buckling_distribution_factor + w.buckling_penalty + w.material_usage +
                  w.compressive_uniformity)))) ∧
    (∀ bdf pen usage cov force : ℝ, ∀ w : analysis.Weights,
        ¬ 0 < analysis.totalWeight w →
        analysis.score3d bdf pen usage cov force w = Metric.infty) := by
  refine ⟨?_, ?_, ?_, ?_⟩
  · intro stresses hshape
    exact analysis.cov_ne_infty hshape
  · intro bdf pen usage cov force w
    refine ⟨fun h => ?_, fun h => ?_, fun h => ?_, fun h => ?_, fun h => ?_⟩ <;>
      (rw [analysis.score2d, h]; ring)
  · intro bdf pen usage cov force w htw
    refine ⟨fun h => ?_, fun h => ?_, fun h => ?_, fun h => ?_, fun h => ?_⟩ <;>
      (rw [analysis.score3d, if_pos htw]
       congr 1
       rw [analysis.score2d, analysis.totalWeight, h]
       ring)
  · intro bdf pen usage cov force w htw
    rw [analysis.score3d, if_neg htw]

/-- C1 counterexample: a truss whose supports restrain only 2 DOFs
(fewer than dof_per_node + 1 = 3) and whose reduced matrix is singular — a
mechanism.  The 2D analysis does not report any distinct error kind: it
returns an ordinary some-result in which spsolve's NaN values sit on the
free DOFs (the restrained DOFs stay exactly 0) and the member force
recovered from them is NaN. -/
theorem C1_counterexample :
    restrainedCount exSupports = 2 ∧ 2 < 2 + 1 ∧
    TwoD.truss_analyze exPts exTrusses exSupports exMats none =
      some ([exStress], exDisp) ∧
    exDisp 0 = some 0 ∧ exDisp 2 = none ∧ exStress.axial_force = none := by
  refine ⟨rfl, by norm_num, ?_, by rw [exDisp]; norm_num, by rw [exDisp]; norm_num, rfl⟩
  rw [TwoD.truss_analyze]
  simp only [assemble_ex, Option.bind_eq_bind', Option.some_bind]
  simp only [calc_ex, Option.some_bind, Option.pure_def, Option.some.injEq, Prod.mk.injEq]
  refine ⟨?_, trivial⟩
  rw [calculate_critical_buckling_force]
  simp only [List.map_cons, List.map_nil]
  rfl

/-- C1 (amended): the two solvers report a mechanism differently and
neither implements the restraint-count rule.  The 3D solver raises the
distinct mechanism / ill-conditioned ValueError when the condition-number
check fires on a nonempty free set (its `< 6 restraints` count check is a
no-op `pass`).  The 2D solver reports no error of any kind: whenever the
reduced matrix is singular, spsolve only warns and NaN-fills the solution
(the except branch never fires), so an ordinary result is returned whose
free DOFs are all NaN. -/
theorem C1_mechanism_error_reporting :
    (∀ (K : ℕ → ℕ → ℝ) element_data pts supports loads disp rows si,
        TwoD.supIdxOf (pts.map fun p => p.Node) supports = some si →
        (TwoD.reduceK K (TwoD.keepOf (2 * pts.length) si)).det = 0 →
        TwoD.calculate_axial_forces_and_displacements K element_data pts supports loads =
          some (disp, rows) →
        ∀ d ∈ TwoD.keepOf (2 * pts.length) si, disp d = none) ∧
    (∀ (K : ℕ → ℕ → ℝ) supports loads pts ndof illCond,
        ThreeD.freeDof ndof
          (ThreeD.constrainedDof (pts.map fun p => p.Node) supports) ≠ [] →
        illCond
          (ThreeD.freeDof ndof (ThreeD.constrainedDof (pts.map fun p => p.Node) supports))
          (ThreeD.reduceK3 K (ThreeD.freeDof ndof
            (ThreeD.constrainedDof (pts.map fun p => p.Node) supports))) = true →
        ThreeD.solve_system K supports loads pts ndof illCond =
          Except.error "Global stiffness matrix is singular or ill-conditioned. Structure is likely a mechanism or improperly supported.") := by
  constructor
  · intro K element_data pts supports loads disp rows si hsi hdet h
    simp only [TwoD.calculate_axial_forces_and_displacements, Option.bind_eq_bind',
      Option.bind_eq_some', Option.pure_def, Option.some.injEq, Prod.mk.injEq] at h
    obtain ⟨F, hF, si2, hsi2, rows2, hrows2, hdisp, hrows⟩ := h
    rw [hsi, Option.some.injEq] at hsi2
    subst hsi2
    intro d hd
    rw [← hdisp]
    have hu : TwoD.linSolve (TwoD.reduceK K (TwoD.keepOf (2 * pts.length) si))
        (fun a => F ((TwoD.keepOf (2 * pts.length) si).get a)) = fun _ => none := by
      rw [TwoD.linSolve, if_pos hdet]
    rw [hu]
    exact TwoD.scatterDisp_none_of_mem hd
  · intro K supports loads pts ndof illCond hne hic
    simp only [ThreeD.solve_system]
    rw [if_neg hne, if_pos hic]

/-- C1 witness: the mechanism example exercises the 2D silent-NaN path
(its reduced matrix is singular and the free DOF 2 reads NaN), and a
one-node unsupported 3D structure whose condition check fires gets the
distinct mechanism error. -/
theorem C1_mechanism_error_reporting_witness :
    exDisp 2 = none ∧
    ThreeD.solve_system (fun _ _ => 0) [] none p3one 3 (fun _ _ => true) =
      Except.error "Global stiffness matrix is singular or ill-conditioned. Structure is likely a mechanism or improperly supported." :=
  ⟨C1_mechanism_error_reporting.1 exK [exElem] exPts exSupports none exDisp
      [exStress] [(0, ⟨0, 1, 1⟩)] rfl det_ex calc_ex 2 (by decide),
   C1_mechanism_error_reporting.2 (fun _ _ => 0) [] none p3one 3 (fun _ _ => true)
      (by decide) rfl⟩

/-- C2 counterexample: a model with a zero-length member (two distinct node
ids at the same position).  2D stiffness assembly does NOT abort with a
fatal error: it returns an ordinary result in which the member was silently
skipped — it contributes nothing to K and no element record. -/
theorem C2_counterexample :
    TwoD.assemble_truss_stiffness zPts exTrusses exMats = some (fun _ _ => 0, []) := by
  rw [TwoD.assemble_truss_stiffness]
  simp only [exTrusses]
  rw [List.foldlM_cons]
  have hstep : TwoD.assembleStep zPts exMats (fun _ _ => 0, []) ⟨0, 0, 1, 0⟩ =
      some (fun _ _ => 0, []) :=
    @TwoD.assembleStep_skip zPts exMats ⟨0, 0, 1, 0⟩ 0 1 ⟨0, 0, 0⟩ ⟨1, 0, 0⟩
      rfl rfl rfl rfl (by norm_num [TwoD.lenSq]) _
  rw [hstep]
  rfl

/-- C2 (amended): a zero-length member is not a fatal configuration error
in either assembler: the 2D assembly step returns its accumulator unchanged
(the member is silently skipped — no element record, no stiffness
contribution, no error), and the 3D assembly step has no length guard at
all and also completes without aborting (in the source it emits NaN
direction cosines rather than a structural error). -/
theorem C2_zero_length_member :
    (∀ pts materials acc (m : TrussRow) i1 i2 p1 p2,
        idToIdx (pts.map fun p => p.Node) m.start = some i1 →
        idToIdx (pts.map fun p => p.Node) m.end_ = some i2 →
        findPoint pts m.start = some p1 →
        findPoint pts m.end_ = some p2 →
        TwoD.lenSq p1 p2 = 0 →
        TwoD.assembleStep pts materials acc m = some acc) ∧
    (∀ pts materials acc (m : TrussRow) i1 i2 p1 p2 mat,
        idToIdx (pts.map fun p => p.Node) m.start = some i1 →
        idToIdx (pts.map fun p => p.Node) m.end_ = some i2 →
        findPoint3 pts m.start = some p1 →
        findPoint3 pts m.end_ = some p2 →
        ThreeD.materialAt materials m.material_id = some mat →
        (ThreeD.assembleStep pts materials acc m).isSome = true) := by
  constructor
  · intro pts materials acc m i1 i2 p1 p2 h1 h2 h3 h4 hlen
    exact TwoD.assembleStep_skip h1 h2 h3 h4 hlen acc
  · intro pts materials acc m i1 i2 p1 p2 mat h1 h2 h3 h4 hm
    exact ThreeD.assembleStep3_total h1 h2 h3 h4 hm acc

/-- C2 witness: the zero-length member of zPts is skipped by the 2D
assembly step, and the 3D assembly step on the zero-length member of z3Pts
still produces a result. -/
theorem C2_zero_length_member_witness :
    TwoD.assembleStep zPts exMats (fun _ _ => 0, [exElem]) ⟨1, 0, 1, 0⟩ =
      some (fun _ _ => 0, [exElem]) ∧
    (ThreeD.assembleStep z3Pts exMats (fun _ _ => 0, []) ⟨0, 0, 1, 0⟩).isSome = true :=
  ⟨C2_zero_length_member.1 zPts exMats _ ⟨1, 0, 1, 0⟩ 0 1 ⟨0, 0, 0⟩ ⟨1, 0, 0⟩
      rfl rfl rfl rfl (by norm_num [TwoD.lenSq]),
   C2_zero_length_member.2 z3Pts exMats _ ⟨0, 0, 1, 0⟩ 0 1 ⟨0, 0, 0, 0⟩ ⟨1, 0, 0, 0⟩
      ⟨0, 1, 1, 1⟩ rfl rfl rfl rfl rfl⟩

/-- C6 counterexample: a member whose material_id (5) resolves to no
material row.  The 2D assembler does not substitute the first material and
succeed: `.iloc[0]` on the empty selection raises (modelled as none), so
assembly fails — an unresolved material reference is a failure in the 2D
path, not a recoverable warning. -/
theorem C6_counterexample :
    TwoD.assemble_truss_stiffness exPts uTrusses exMats = none := by
  rw [TwoD.assemble_truss_stiffness]
  refine TwoD.foldlM_eq_none _ _ (⟨0, 0, 1, 5⟩ : TrussRow) (by simp [uTrusses]) ?_ _
  exact @TwoD.assembleStep_bad_material exPts exMats ⟨0, 0, 1, 5⟩ 0 1
    ⟨0, 0, 0⟩ ⟨1, 1, 0⟩ rfl rfl rfl rfl (by norm_num [TwoD.lenSq]) rfl

/-- C6 (amended): an unresolved material reference is handled differently
by the two assemblers, and neither matches the claim: the 3D assembler
falls back to the first material row and continues, but emits no warning
anywhere; the 2D assembler looks the id up with a mask-and-iloc[0], which
raises on an empty selection, so 2D assembly fails outright. -/
theorem C6_unresolved_material :
    (∀ (materials : List MaterialRow) (idx : ℕ), ¬ idx < materials.length →
        ThreeD.materialAt materials idx = materials.head?) ∧
    (∀ pts (mh : MaterialRow) rest acc (m : TrussRow) i1 i2 p1 p2,
        idToIdx (pts.map fun p => p.Node) m.start = some i1 →
        idToIdx (pts.map fun p => p.Node) m.end_ = some i2 →
        findPoint3 pts m.start = some p1 →
        findPoint3 pts m.end_ = some p2 →
        ¬ m.material_id < (mh :: rest).length →
        ∃ Knew ed, ThreeD.assembleStep pts (mh :: rest) acc m =
            some (Knew, acc.2 ++ [ed]) ∧
          ed.E = mh.E ∧ ed.A = mh.A ∧ ed.I = mh.I) ∧
    (∀ pts trusses materials (m : TrussRow) i1 i2 p1 p2, m ∈ trusses →
        idToIdx (pts.map fun p => p.Node) m.start = some i1 →
        idToIdx (pts.map fun p => p.Node) m.end_ = some i2 →
        findPoint pts m.start = some p1 →
        findPoint pts m.end_ = some p2 →
        TwoD.lenSq p1 p2 ≠ 0 →
        materials.filter (fun mm => mm.material_id = m.material_id) = [] →
        TwoD.assemble_truss_stiffness pts trusses materials = none) := by
  refine ⟨?_, ?_, ?_⟩
  · intro materials idx h
    rw [ThreeD.materialAt, dif_neg h]
  · intro pts mh rest acc m i1 i2 p1 p2 h1 h2 h3 h4 hidx
    exact ThreeD.assembleStep3_fallback h1 h2 h3 h4 hidx acc
  · intro pts trusses materials m i1 i2 p1 p2 hm h1 h2 h3 h4 hlen hmat
    rw [TwoD.assemble_truss_stiffness]
    exact TwoD.foldlM_eq_none _ _ m hm
      (TwoD.assembleStep_bad_material h1 h2 h3 h4 hlen hmat) _

/-- C6 witness: material index 5 against the one-row exMats falls back to
the first row in the 3D lookup, and the 3D assembly step then records the
first material's E, A, I for the member. -/
theorem C6_unresolved_material_witness :
    ThreeD.materialAt exMats 5 = exMats.head? ∧
    (∃ Knew ed, ThreeD.assembleStep z3Pts exMats (fun _ _ => 0, []) ⟨0, 0, 1, 5⟩ =
        some (Knew, [] ++ [ed]) ∧ ed.E = 1 ∧ ed.A = 1 ∧ ed.I = 1) :=
  ⟨C6_unresolved_material.1 exMats 5 (by decide),
   C6_unresolved_material.2.1 z3Pts ⟨0, 1, 1, 1⟩ [] (fun _ _ => 0, []) ⟨0, 0, 1, 5⟩
      0 1 ⟨0, 0, 0, 0⟩ ⟨1, 0, 0, 0⟩ rfl rfl rfl rfl (by decide)⟩

/-- C4: the displacement vector returned by a solve is exactly zero at
every restrained DOF — never NaN, whatever the reduced solve produced (2D:
any DOF removed by a support flag; 3D: any DOF in the constrained list) —
and the 3D solver returns the all-zero vector immediately when the
free-DOF set is empty. -/
theorem C4_restrained_dofs_zero :
    (∀ (K : ℕ → ℕ → ℝ) element_data pts supports loads disp rows si d,
        TwoD.supIdxOf (pts.map fun p => p.Node) supports = some si →
        TwoD.flagged si d = true →
        TwoD.calculate_axial_forces_and_displacements K element_data pts supports loads =
          some (disp, rows) →
        disp d = some 0) ∧
    (∀ (K : ℕ → ℕ → ℝ) supports loads pts ndof illCond disp free d,
        ThreeD.solve_system K supports loads pts ndof illCond = Except.ok (disp, free) →
        d ∈ ThreeD.constrainedDof (pts.map fun p => p.Node) supports →
        disp d = some 0) ∧
    (∀ (K : ℕ → ℕ → ℝ) supports loads pts ndof illCond,
        ThreeD.freeDof ndof (ThreeD.constrainedDof (pts.map fun p => p.Node) supports) = [] →
        ThreeD.solve_system K supports loads pts ndof illCond =
          Except.ok (fun _ => some 0, [])) := by
  refine ⟨?_, ?_, ?_⟩
  · intro K element_data pts supports loads disp rows si d hsi hflag h
    simp only [TwoD.calculate_axial_forces_and_displacements, Option.bind_eq_bind',
      Option.bind_eq_some', Option.pure_def, Option.some.injEq, Prod.mk.injEq] at h
    obtain ⟨F, hF, si2, hsi2, rows2, hrows2, hdisp, hrows⟩ := h
    rw [hsi, Option.some.injEq] at hsi2
    subst hsi2
    rw [← hdisp]
    exact TwoD.scatterDisp_of_not_mem _ (TwoD.not_mem_keepOf_of_flagged hflag)
  · intro K supports loads pts ndof illCond disp free d h hd
    simp only [ThreeD.solve_system] at h
    by_cases hempty : ThreeD.freeDof ndof
        (ThreeD.constrainedDof (pts.map fun p => p.Node) supports) = []
    · rw [if_pos hempty] at h
      rw [Except.ok.injEq, Prod.mk.injEq] at h
      rw [← h.1]
    · rw [if_neg hempty] at h
      by_cases hic : illCond _ (ThreeD.reduceK3 K (ThreeD.freeDof ndof
          (ThreeD.constrainedDof (pts.map fun p => p.Node) supports))) = true
      · rw [if_pos hic] at h
        exact Except.noConfusion h
      · rw [if_neg hic] at h
        rw [Except.ok.injEq, Prod.mk.injEq] at h
        rw [← h.1]
        exact ThreeD.scatterDisp3_of_not_mem _
          (ThreeD.not_mem_freeDof_of_constrained hd)
  · intro K supports loads pts ndof illCond hfree
    simp only [ThreeD.solve_system]
    rw [if_pos hfree, hfree]

/-- C4 witness: a single fully restrained 3D node — the free set is empty,
the solver returns the all-zero displacement vector without a solve, and
the restrained DOF 0 reads exactly zero (never NaN). -/
theorem C4_restrained_dofs_zero_witness :
    ThreeD.solve_system (fun _ _ => 0) s3full none p3one 3
        (fun _ _ => false) = Except.ok (fun _ => some 0, []) ∧
    (fun _ : ℕ => (some 0 : Option ℝ)) 0 = some 0 := by
  have hfree : ThreeD.freeDof 3
      (ThreeD.constrainedDof (p3one.map fun p => p.Node) s3full) = [] := by decide
  have hok := C4_restrained_dofs_zero.2.2 (fun _ _ => 0) s3full none p3one 3
    (fun _ _ => false) hfree
  refine ⟨hok, ?_⟩
  exact C4_restrained_dofs_zero.2.1 (fun _ _ => 0) s3full none p3one 3
    (fun _ _ => false) (fun _ => some 0) [] 0 hok (by decide)

/-- C9: for every model accepted by assembly, the assembled global
stiffness matrix is symmetric (K i j = K j i after every element's
scatter-add) and is supported inside the square of side
dof_per_node * node_count (every entry outside that square is 0,
capturing the ndof x ndof allocation); the 3D assembler also reports
ndof = 3 * node_count. -/
theorem C9_assembled_stiffness_symmetric :
    (∀ pts trusses materials K ed,
        TwoD.assemble_truss_stiffness pts trusses materials = some (K, ed) →
        (∀ i j, K i j = K j i) ∧
        (∀ i j, 2 * pts.length ≤ i ∨ 2 * pts.length ≤ j → K i j = 0)) ∧
    (∀ pts trusses materials Ked n,
        ThreeD.assemble_truss_stiffness pts trusses materials = some (Ked, n) →
        n = 3 * pts.length ∧
        (∀ i j, Ked.1 i j = Ked.1 j i) ∧
        (∀ i j, 3 * pts.length ≤ i ∨ 3 * pts.length ≤ j → Ked.1 i j = 0)) := by
  constructor
  · intro pts trusses materials K ed h
    rw [TwoD.assemble_truss_stiffness] at h
    have hstep : ∀ (acc acc2 : (ℕ → ℕ → ℝ) × List TwoD.ElemData) (a : TrussRow),
        TwoD.assembleStep pts materials acc a = some acc2 →
        ((∀ p q, acc.1 p q = acc.1 q p) ∧
          (∀ p q, 2 * pts.length ≤ p ∨ 2 * pts.length ≤ q → acc.1 p q = 0)) →
        ((∀ p q, acc2.1 p q = acc2.1 q p) ∧
          (∀ p q, 2 * pts.length ≤ p ∨ 2 * pts.length ≤ q → acc2.1 p q = 0)) := by
      intro acc acc2 a hs hP
      rcases TwoD.assembleStep_cases hs with rfl | ⟨i1, i2, kl, cx, cy, edr, h1, h2, rfl⟩
      · exact hP
      · have hi1 : i1 < pts.length := by
          have hb := idToIdx_lt h1
          rwa [List.length_map] at hb
        have hi2 : i2 < pts.length := by
          have hb := idToIdx_lt h2
          rwa [List.length_map] at hb
        constructor
        · intro p q
          exact TwoD.scatterAdd4_symm hP.1 _
            (fun i j => TwoD.k_global_element_symm kl cx cy i j) p q
        · intro p q hpq
          exact TwoD.scatterAdd4_outside hP.2 _ (TwoD.dofs2_lt hi1 hi2) _ p q hpq
    exact @foldlM_invariant _ _
      (fun acc => (∀ p q, acc.1 p q = acc.1 q p) ∧
        (∀ p q, 2 * pts.length ≤ p ∨ 2 * pts.length ≤ q → acc.1 p q = 0))
      (TwoD.assembleStep pts materials) hstep trusses (fun _ _ => 0, [])
      ⟨fun _ _ => rfl, fun _ _ _ => rfl⟩ (K, ed) h
  · intro pts trusses materials Ked n h
    rw [ThreeD.assemble_truss_stiffness] at h
    simp only [Option.bind_eq_bind', Option.bind_eq_some', Option.pure_def,
      Option.some.injEq, Prod.mk.injEq] at h
    obtain ⟨Ked0, hfold, hK, hn⟩ := h
    subst hK
    refine ⟨hn.symm, ?_⟩
    have hstep : ∀ (acc acc2 : (ℕ → ℕ → ℝ) × List ThreeD.ElemData) (a : TrussRow),
        ThreeD.assembleStep pts materials acc a = some acc2 →
        ((∀ p q, acc.1 p q = acc.1 q p) ∧
          (∀ p q, 3 * pts.length ≤ p ∨ 3 * pts.length ≤ q → acc.1 p q = 0)) →
        ((∀ p q, acc2.1 p q = acc2.1 q p) ∧
          (∀ p q, 3 * pts.length ≤ p ∨ 3 * pts.length ≤ q → acc2.1 p q = 0)) := by
      intro acc acc2 a hs hP
      obtain ⟨i1, i2, kl, c, edr, h1, h2, rfl⟩ := ThreeD.assembleStep3_cases hs
      have hi1 : i1 < pts.length := by
        have hb := idToIdx_lt h1
        rwa [List.length_map] at hb
      have hi2 : i2 < pts.length := by
        have hb := idToIdx_lt h2
        rwa [List.length_map] at hb
      constructor
      · intro p q
        exact ThreeD.scatterAdd6_symm hP.1 _ (fun i j => ThreeD.K_e_symm kl c i j) p q
      · intro p q hpq
        exact ThreeD.scatterAdd6_outside hP.2 _ (ThreeD.dofs3_lt hi1 hi2) _ p q hpq
    exact @foldlM_invariant _ _
      (fun acc => (∀ p q, acc.1 p q = acc.1 q p) ∧
        (∀ p q, 3 * pts.length ≤ p ∨ 3 * pts.length ≤ q → acc.1 p q = 0))
      (ThreeD.assembleStep pts materials) hstep trusses (fun _ _ => 0, [])
      ⟨fun _ _ => rfl, fun _ _ _ => rfl⟩ Ked0 hfold

/-- C9 witness: the assembled mechanism-example stiffness is symmetric and
vanishes outside its 4 x 4 (= dof_per_node * node_count) square, and a 3D
assembly reports ndof = 3 * node_count. -/
theorem C9_assembled_stiffness_symmetric_witness :
    (exK 2 3 = exK 3 2 ∧ exK 7 0 = 0) ∧ (3 : ℕ) = 3 * p3one.length := by
  have h2 := C9_assembled_stiffness_symmetric.1 exPts exTrusses exMats exK [exElem]
    assemble_ex
  have h3 := C9_assembled_stiffness_symmetric.2 p3one [] exMats (fun _ _ => 0, []) 3 rfl
  exact ⟨⟨h2.1 2 3, h2.2 7 0 (Or.inl (by decide))⟩, h3.1⟩

/-- C8 witness: an empty analysis result has a finite coefficient of
variation; concrete metric values with the uniformity weight zeroed score
exactly the weighted sum of the remaining four terms in 2D, and that sum
over the remaining total weight in 3D. -/
theorem C8_zero_weight_disables_witness :
    (analysis.calculate_buckling_indices []).coefficient_of_variation ≠
      Metric.infty ∧
    analysis.score2d 7 1 2 3 4 ⟨2, 1, 1, 0, 1⟩ = 7 * 2 + 1 * 1 + 2 * 1 + 4 * 1 ∧
    analysis.score3d 7 1 2 3 4 ⟨2, 1, 1, 0, 1⟩ =
      Metric.val ((7 * 2 + 1 * 1 + 2 * 1 + 4 * 1) / (2 + 1 + 1 + 1)) :=
  ⟨C8_zero_weight_disables.1 [] (by simp),
   (C8_zero_weight_disables.2.1 7 1 2 3 4 ⟨2, 1, 1, 0, 1⟩).2.2.2.1 rfl,
   (C8_zero_weight_disables.2.2.1 7 1 2 3 4 ⟨2, 1, 1, 0, 1⟩
      (by rw [analysis.totalWeight]; norm_num)).2.2.2.1 rfl⟩

end Truss
